import Mathlib

/-!
Shallow embedding of the FinBot ledger (src/A1.py): the SQLite-backed tables,
the command handlers' database logic, the period helpers and the daily-digest
computation, together with proofs of the spec-level claims about them.

Modelling conventions:
* SQLite REAL / Python float values are carried by `PyF`: exact rationals plus
  the IEEE specials (binary rounding of doubles is outside the model).
* SQL text comparison uses the BINARY collation, i.e. bytewise comparison of
  the UTF-8 encoding; on the ASCII timestamp strings used here this is the
  codepoint-lexicographic order implemented by `listLtb`.
* A Python exception that a handler does not catch is modelled by an `Option`
  result being `none`.
-/

/-- Decimal digit character; total by clamping at 9, only ever applied to
arguments below 10. -/
def digitChar : Nat → Char
  | 0 => '0' | 1 => '1' | 2 => '2' | 3 => '3' | 4 => '4'
  | 5 => '5' | 6 => '6' | 7 => '7' | 8 => '8' | _ => '9'

/-- Two fixed decimal digits, agreeing with %02d for n < 100. -/
def pad2 (n : Nat) : List Char := [digitChar (n / 10), digitChar (n % 10)]

/-- Four fixed decimal digits as two 2-digit blocks, agreeing with %04d for
n < 10000. -/
def pad4 (n : Nat) : List Char := pad2 (n / 100) ++ pad2 (n % 100)

/-- Six fixed decimal digits, agreeing with %06d for n < 1000000. -/
def pad6 (n : Nat) : List Char := pad2 (n / 10000) ++ pad2 (n / 100 % 100) ++ pad2 (n % 100)

/-- SQLite BINARY collation on ASCII data: codepoint-lexicographic strict
comparison of character lists. -/
def listLtb : List Char → List Char → Bool
  | [], [] => false
  | [], _ :: _ => true
  | _ :: _, [] => false
  | a :: as, b :: bs =>
    if a.toNat < b.toNat then true
    else if b.toNat < a.toNat then false
    else listLtb as bs

/-- SQL `x < y` on TEXT. -/
def strLtb (a b : String) : Bool := listLtb a.data b.data

/-- SQL `x <= y` on TEXT (also used for `y >= x`). -/
def strLeb (a b : String) : Bool := !(strLtb b a)

/-- Python float / SQLite REAL abstracted: exact rationals plus the IEEE
specials. -/
inductive PyF where
  | fin (q : ℚ)
  | pinf
  | ninf
  | nan
deriving DecidableEq

/-- Unary minus on PyF. -/
def PyF.neg : PyF → PyF
  | .fin q => .fin (-q)
  | .pinf => .ninf
  | .ninf => .pinf
  | .nan => .nan

/-- abs() / SQL ABS on PyF. -/
def PyF.abs : PyF → PyF
  | .fin q => .fin |q|
  | .pinf => .pinf
  | .ninf => .pinf
  | .nan => .nan

/-- IEEE-style addition on PyF: exact on finite values, nan-propagating,
with inf + (-inf) = nan. -/
def PyF.add : PyF → PyF → PyF
  | .nan, _ => .nan
  | _, .nan => .nan
  | .pinf, .ninf => .nan
  | .ninf, .pinf => .nan
  | .pinf, _ => .pinf
  | _, .pinf => .pinf
  | .ninf, _ => .ninf
  | _, .ninf => .ninf
  | .fin a, .fin b => .fin (a + b)

/-- SQL SUM as a left fold of additions starting from 0 (NULL-ness of SUM over
an empty selection is handled at the call sites). -/
def pySum (l : List PyF) : PyF := l.foldl PyF.add (.fin 0)

/-- SQLite ROUND(x, 2) on the rational abstraction: round half away from zero
to two decimals. -/
def round2q (q : ℚ) : ℚ :=
  if 0 ≤ q then ((⌊q * 100 + 1 / 2⌋ : ℤ) : ℚ) / 100
  else -(((⌊-q * 100 + 1 / 2⌋ : ℤ) : ℚ) / 100)

/-- ROUND(x, 2) lifted to PyF (specials pass through). -/
def PyF.round2 : PyF → PyF
  | .fin q => .fin (round2q q)
  | x => x

/-- Whitespace for Python str.strip() / str.split(). -/
def pyIsSpace (c : Char) : Bool :=
  c == ' ' || c == '\t' || c == '\n' || c == '\r' || c == '\x0b' || c == '\x0c'

/-- Python str.strip(). -/
def pyStrip (s : String) : String :=
  String.mk (((s.data.dropWhile pyIsSpace).reverse.dropWhile pyIsSpace).reverse)

/-- Accumulator pass for pySplit. -/
def pySplitAux : List Char → List Char → List String
  | [], acc => if acc.isEmpty then [] else [String.mk acc.reverse]
  | c :: cs, acc =>
    if pyIsSpace c then
      if acc.isEmpty then pySplitAux cs [] else String.mk acc.reverse :: pySplitAux cs []
    else pySplitAux cs (c :: acc)

/-- Python str.split() with no argument: split on whitespace runs, producing no
empty tokens. -/
def pySplit (s : String) : List String := pySplitAux s.data []

/-- Value of a decimal digit character. -/
def digitVal (c : Char) : Nat := c.toNat - 48

/-- Accumulating decimal reader; none on the first non-digit. -/
def digitsToNatAux : List Char → Nat → Option Nat
  | [], acc => some acc
  | c :: cs, acc => if c.isDigit then digitsToNatAux cs (acc * 10 + digitVal c) else none

/-- Nonempty all-digit run to Nat. -/
def digitsToNat (l : List Char) : Option Nat :=
  if l.isEmpty then none else digitsToNatAux l 0

/-- Python int(string): optional surrounding whitespace, optional sign, then
decimal digits (underscore separators are not modelled); none models the
ValueError. -/
def pyInt (s : String) : Option Int :=
  match (pyStrip s).data with
  | '-' :: rest => (digitsToNat rest).map (fun n => -(n : Int))
  | '+' :: rest => (digitsToNat rest).map (fun n => (n : Int))
  | l => (digitsToNat l).map (fun n => (n : Int))

/-- ASCII case fold for str.lower(); the category names exercised here are
ASCII or already-lowercase Cyrillic, where this agrees with Python. -/
def pyLower (s : String) : String := String.mk (s.data.map Char.toLower)

/-- All-digit run read as a Nat, empty list giving 0 (used for the two sides of
the decimal point). -/
def decDigits : List Char → Option Nat
  | l => if l.all Char.isDigit then some (l.foldl (fun a c => a * 10 + digitVal c) 0) else none

/-- Mantissa of a float literal: digits with at most one decimal point and at
least one digit. -/
def parseMantissa (l : List Char) : Option ℚ :=
  let ip := l.takeWhile (fun c => c != '.')
  let rest := l.dropWhile (fun c => c != '.')
  match rest with
  | [] => if ip.isEmpty then none else (decDigits ip).map (fun n => (n : ℚ))
  | _ :: fp =>
    if fp.contains '.' then none
    else if ip.isEmpty && fp.isEmpty then none
    else
      match decDigits ip, decDigits fp with
      | some a, some b => some ((a : ℚ) + (b : ℚ) / (10 : ℚ) ^ fp.length)
      | _, _ => none

/-- Exponent part of a float literal. -/
def parseExp (l : List Char) : Option Int :=
  match l with
  | '-' :: r => (digitsToNat r).map (fun n => -(n : Int))
  | '+' :: r => (digitsToNat r).map (fun n => (n : Int))
  | r => (digitsToNat r).map (fun n => (n : Int))

/-- Unsigned decimal float literal with optional exponent. -/
def parseDecimal (l : List Char) : Option ℚ :=
  let m := l.takeWhile (fun c => c != 'e')
  let rest := l.dropWhile (fun c => c != 'e')
  match rest with
  | [] => parseMantissa m
  | _ :: e =>
    match parseMantissa m, parseExp e with
    | some q, some ex => some (q * (10 : ℚ) ^ ex)
    | _, _ => none

/-- Python float(string) on the PyF abstraction: optional whitespace and sign,
case-insensitive inf/infinity/nan, or a decimal literal with optional fraction
and exponent. Values are exact rationals; underscore separators are omitted. -/
def pyFloatOfString (s : String) : Option PyF :=
  let body : List Char → Bool → Option PyF := fun l sgn =>
    if l = "inf".data ∨ l = "infinity".data then some (if sgn then .ninf else .pinf)
    else if l = "nan".data then some .nan
    else (parseDecimal l).map (fun q => .fin (if sgn then -q else q))
  match (pyStrip s).data.map Char.toLower with
  | '-' :: rest => body rest true
  | '+' :: rest => body rest false
  | rest => body rest false

/-- args[0].replace(",", "."). -/
def commaToDot (s : String) : String :=
  String.mk (s.data.map (fun c => if c == ',' then '.' else c))

/-- Python s[:n]. -/
def strTake (s : String) (n : Nat) : String := String.mk (s.data.take n)

/-- Python s[a:b]. -/
def strSlice (s : String) (a b : Nat) : String := String.mk ((s.data.take b).drop a)

/-- " ".join(l). -/
def joinSpace (l : List String) : String := String.intercalate " " l

/-! ## Time model (datetime in timezone.utc) -/

/-- UTC wall-clock instant, mirroring an aware Python datetime in UTC. -/
structure PyDT where
  year : Nat
  month : Nat
  day : Nat
  hour : Nat
  minute : Nat
  second : Nat
  micro : Nat
deriving DecidableEq

/-- Gregorian leap-year test. -/
def isLeap (y : Nat) : Bool := (y % 4 == 0 && y % 100 != 0) || y % 400 == 0

/-- Days in a month (m in 1..12). -/
def daysInMonth (y m : Nat) : Nat :=
  if m == 2 then (if isLeap y then 29 else 28)
  else if m == 4 || m == 6 || m == 9 || m == 11 then 30 else 31

/-- iso_utc: datetime.isoformat() of a UTC-aware value with "+00:00" replaced
by "Z"; Python prints the microsecond field only when it is nonzero. -/
def isoUtc (d : PyDT) : String :=
  String.mk (pad4 d.year ++ '-' :: pad2 d.month ++ '-' :: pad2 d.day ++
    'T' :: pad2 d.hour ++ ':' :: pad2 d.minute ++ ':' :: pad2 d.second ++
    (if d.micro == 0 then [] else '.' :: pad6 d.micro) ++ ['Z'])

/-- datetime(year, month, day, tzinfo=UTC): none models the ValueError raised
for out-of-range fields (MINYEAR 1, MAXYEAR 9999, month 1..12). -/
def mkDT (y m d : Int) : Option PyDT :=
  if 1 ≤ y ∧ y ≤ 9999 ∧ 1 ≤ m ∧ m ≤ 12 ∧ 1 ≤ d ∧ d ≤ (daysInMonth y.toNat m.toNat : Int)
  then some ⟨y.toNat, m.toNat, d.toNat, 0, 0, 0, 0⟩ else none

/-- month_bounds_utc: ISO strings of the first instant of the month and of the
first instant of the next month (December rolls into January of year + 1). -/
def month_bounds_utc (year month : Int) : Option (String × String) :=
  match mkDT year month 1,
        mkDT (year + (if month == 12 then 1 else 0)) (if month == 12 then 1 else month + 1) 1 with
  | some s, some e => some (isoUtc s, isoUtc e)
  | _, _ => none

/-- d.replace(day=1, hour=0, minute=0, second=0, microsecond=0). -/
def monthStart (d : PyDT) : PyDT :=
  { d with day := 1, hour := 0, minute := 0, second := 0, micro := 0 }

/-- d.replace(hour=0, minute=0, second=0, microsecond=0). -/
def dayStart (d : PyDT) : PyDT :=
  { d with hour := 0, minute := 0, second := 0, micro := 0 }

/-- d - timedelta(days=1) for a valid calendar date. -/
def minusOneDay (d : PyDT) : PyDT :=
  if 2 ≤ d.day then { d with day := d.day - 1 }
  else if 2 ≤ d.month then { d with month := d.month - 1, day := daysInMonth d.year (d.month - 1) }
  else { d with year := d.year - 1, month := 12, day := 31 }

/-- now.strftime("%Y-%m"). -/
def strfYM (d : PyDT) : String := String.mk (pad4 d.year ++ '-' :: pad2 d.month)

/-! ## Store model (the four SQLite tables and the row id counters) -/

/-- Row of the categories table. -/
structure CatRow where
  id : Nat
  user_id : Int
  name : String
  ctype : String
deriving DecidableEq

/-- Row of the transactions table. -/
structure TxnRow where
  id : Nat
  user_id : Int
  amount : PyF
  category_id : Nat
  ts : String
  note : String
  ttype : String
deriving DecidableEq

/-- Row of the budgets table. -/
structure BudgetRow where
  id : Nat
  user_id : Int
  category_id : Nat
  period : String
  amount : PyF
deriving DecidableEq

/-- Row of the users table (the fields the core reads). -/
structure UserRow where
  id : Int
  digest_hour_utc : Option Int
deriving DecidableEq

/-- The persistent store: table contents plus the AUTOINCREMENT counters
(SQLite row ids start at 1). -/
structure DB where
  users : List UserRow
  categories : List CatRow
  transactions : List TxnRow
  budgets : List BudgetRow
  nextCat : Nat
  nextTxn : Nat
  nextBudget : Nat
deriving DecidableEq

/-- Fresh store after init_db. -/
def DB.empty : DB := ⟨[], [], [], [], 1, 1, 1⟩

/-- Fixed digest hour constant. -/
def DAILY_DIGEST_HOUR_UTC : Int := 18

/-- ensure_user: INSERT OR IGNORE INTO users(id, digest_hour_utc). -/
def ensure_user (db : DB) (uid : Int) : DB :=
  if db.users.any (fun u => u.id == uid) then db
  else { db with users := db.users ++ [⟨uid, some DAILY_DIGEST_HOUR_UTC⟩] }

/-- WHERE clause of the category lookup. -/
def catMatch (uid : Int) (nm ttype : String) (c : CatRow) : Bool :=
  c.user_id == uid && c.name == nm && c.ctype == ttype

/-- upsert_category: lowercase the name, INSERT ... SELECT ... WHERE NOT
EXISTS(...), then SELECT id; the Option models fetchone() possibly returning no
row (which cannot happen after the conditional insert). -/
def upsert_category (db : DB) (uid : Int) (name ttype : String) : DB × Option Nat :=
  let nm := pyLower name
  let db1 :=
    if db.categories.any (catMatch uid nm ttype) then db
    else { db with categories := db.categories ++ [⟨db.nextCat, uid, nm, ttype⟩],
                   nextCat := db.nextCat + 1 }
  (db1, (db1.categories.find? (catMatch uid nm ttype)).map (fun c => c.id))

/-- Category-name derivation in add_txn_core:
(note.split()[0] if note else "прочее").lower(). The none result models the
IndexError raised when the note is nonempty but entirely whitespace, so that
split() returns an empty list. -/
def catNameOf (note : String) : Option String :=
  if note == "" then some (pyLower "прочее")
  else ((pySplit note).head?).map pyLower

/-- add_txn_core: ensure the user row, derive and resolve the category, insert
the signed transaction stamped with `now`, and return the category name.
The stored amount is the raw amount for income and -abs(amount) for expense. -/
def add_txn_core (db : DB) (uid : Int) (amount : PyF) (note ttype : String) (now : PyDT) :
    Option (DB × String) :=
  let db0 := ensure_user db uid
  match catNameOf note with
  | none => none
  | some cat_name =>
    match upsert_category db0 uid cat_name ttype with
    | (db1, some cat_id) =>
      let now_iso := isoUtc now
      let amount_val := if ttype == "income" then amount else PyF.neg (PyF.abs amount)
      some ({ db1 with
                transactions := db1.transactions ++
                  [⟨db1.nextTxn, uid, amount_val, cat_id, now_iso, note, ttype⟩],
                nextTxn := db1.nextTxn + 1 }, cat_name)
    | (_, none) => none

/-- Result of parse_amount_and_note. -/
structure Parsed where
  amount : Option PyF
  note : String
deriving DecidableEq

/-- parse_amount_and_note: float() on args[0] with commas turned into dots; on
success the note is the rest of the args joined and stripped, on ValueError the
note is all args joined and stripped and the amount is None. -/
def parse_amount_and_note (args : List String) : Parsed :=
  match args with
  | [] => ⟨none, ""⟩
  | a0 :: rest =>
    match pyFloatOfString (commaToDot a0) with
    | some amt => ⟨some amt, pyStrip (joinSpace rest)⟩
    | none => ⟨none, pyStrip (joinSpace (a0 :: rest))⟩

/-- add_txn handler body: none models the "Укажите сумму" validation reply
(amount is None, store untouched); otherwise add_txn_core runs. -/
def add_txn (db : DB) (uid : Int) (args : List String) (ttype : String) (now : PyDT) :
    Option (DB × String) :=
  let parsed := parse_amount_and_note args
  match parsed.amount with
  | none => none
  | some a => add_txn_core db uid a parsed.note ttype now

/-- WHERE clause of get_totals: user_id = uid AND ts >= start. -/
def totalsMatch (uid : Int) (start : String) (t : TxnRow) : Bool :=
  t.user_id == uid && strLeb start t.ts

/-- get_totals: the three ROUND(...)ed aggregates over `user_id = ? AND
ts >= ?`; SQLite SUM over an empty selection is NULL, hence the none fields
when no row matches. -/
def get_totals (db : DB) (uid : Int) (start_iso : String) :
    Option PyF × Option PyF × Option PyF :=
  let rows := db.transactions.filter (totalsMatch uid start_iso)
  if rows.isEmpty then (none, none, none)
  else
    (some (PyF.round2 (pySum (rows.map (fun t => if t.ttype == "income" then t.amount else .fin 0)))),
     some (PyF.round2 (PyF.abs (pySum (rows.map (fun t => if t.ttype == "expense" then t.amount else .fin 0))))),
     some (PyF.round2 (pySum (rows.map (fun t => t.amount)))))

/-- cmd_sum after the DB read: the month-to-now triple the handler formats with
"%.2f". The fetched aggregate row always exists, and a tuple of three Nones is
truthy in Python, so `row or (0, 0, 0)` keeps the NULLs; formatting None with
"%.2f" raises TypeError, modelled by the none result. -/
def cmd_sum_values (db : DB) (uid : Int) (now : PyDT) : Option (PyF × PyF × PyF) :=
  let first := isoUtc (monthStart now)
  match get_totals db uid first with
  | (some i, some e, some n) => some (i, e, n)
  | _ => none

/-! ## Budgets, listings, export, digest -/

/-- resolve_category: SELECT id ... WHERE user_id=? AND name=? AND
type='expense' (name lowercased first). -/
def resolve_category (db : DB) (uid : Int) (name : String) : Option Nat :=
  (db.categories.find? (catMatch uid (pyLower name) "expense")).map (fun c => c.id)

/-- WHERE clause of the budgets UNIQUE key. -/
def budgetKey (uid : Int) (cid : Nat) (period : String) (b : BudgetRow) : Bool :=
  b.user_id == uid && b.category_id == cid && b.period == period

/-- INSERT INTO budgets ... ON CONFLICT(user_id, category_id, period) DO UPDATE
SET amount = excluded.amount; under the UNIQUE constraint at most one row can
conflict, so updating every key-matching row is the same operation. -/
def budget_upsert (db : DB) (uid : Int) (cid : Nat) (period : String) (amount : PyF) : DB :=
  if db.budgets.any (budgetKey uid cid period) then
    { db with budgets :=
        db.budgets.map (fun b =>
          if budgetKey uid cid period b then { b with amount := amount } else b) }
  else
    { db with budgets := db.budgets ++ [⟨db.nextBudget, uid, cid, period, amount⟩],
              nextBudget := db.nextBudget + 1 }

/-- cmd_budget_set after argument parsing: the period argument is used verbatim
with no validation, a missing one falls back to the current month string; the
category is resolved or created as an expense category (`if not cat_id` only
fires for the None case since SQLite row ids start at 1). The none result
models fetchone() returning no row inside upsert_category, which cannot
happen. -/
def cmd_budget_set_core (db : DB) (uid : Int) (catName : String) (amount : PyF)
    (periodArg : Option String) (now : PyDT) : Option (DB × String) :=
  let cat := pyLower catName
  let period := periodArg.getD (strfYM now)
  let db0 := ensure_user db uid
  let r : DB × Option Nat :=
    match resolve_category db0 uid cat with
    | some cid => (db0, some cid)
    | none => upsert_category db0 uid cat "expense"
  match r with
  | (db1, some cid) => some (budget_upsert db1 uid cid period amount, period)
  | (_, none) => none

/-- Correlated spent subquery of cmd_budget_view (and spent_in_period):
ABS(COALESCE(SUM(amount), 0)) over the user's expense transactions of that
category inside the half-open bounds. -/
def spentOf (db : DB) (b : BudgetRow) (start_iso end_iso : String) : PyF :=
  PyF.abs (pySum ((db.transactions.filter (fun t =>
    t.user_id == b.user_id && t.category_id == b.category_id && t.ttype == "expense" &&
    strLeb start_iso t.ts && strLtb t.ts end_iso)).map (fun t => t.amount)))

/-- Insertion step for sortByLe. -/
def insertByLe (le : α → α → Bool) (x : α) : List α → List α
  | [] => [x]
  | y :: ys => if le x y then x :: y :: ys else y :: insertByLe le x ys

/-- Insertion sort standing in for SQL ORDER BY (ties ordered arbitrarily, as
in SQL). -/
def sortByLe (le : α → α → Bool) : List α → List α
  | [] => []
  | x :: xs => insertByLe le x (sortByLe le xs)

/-- cmd_budget_view body: the period argument (or the current month) is sliced
and int()-parsed with no validation and no fallback; none models the uncaught
ValueError from int() or from datetime inside month_bounds_utc. Rows are the
user's budgets for the period joined to categories, ordered by category
name. -/
def cmd_budget_view_rows (db : DB) (uid : Int) (periodArg : Option String) (now : PyDT) :
    Option (List (String × PyF × PyF)) :=
  let period := periodArg.getD (strfYM now)
  let db0 := ensure_user db uid
  match pyInt (strTake period 4), pyInt (strSlice period 5 7) with
  | some y, some m =>
    match month_bounds_utc y m with
    | some (s, e) =>
      some (sortByLe (fun a b => !(strLtb b.1 a.1))
        ((db0.budgets.filter (fun b => b.user_id == uid && b.period == period)).flatMap
          (fun b => (db0.categories.filter (fun c => c.id == b.category_id)).map
            (fun c => (c.name, b.amount, spentOf db0 b s e)))))
    | none => none
  | _, _ => none

/-- Decimal digits of n with explicit fuel (n itself suffices). -/
def natDecAux : Nat → Nat → List Char
  | 0, _ => []
  | fuel + 1, n => if n == 0 then [] else natDecAux fuel (n / 10) ++ [digitChar (n % 10)]

/-- Decimal digits of a Nat, no padding. -/
def natDec (n : Nat) : List Char := if n == 0 then ['0'] else natDecAux n n

/-- Python f-string 0-padded integer field f"{v:0wd}": the sign counts toward
the width. -/
def fmtInt0 (w : Nat) (v : Int) : List Char :=
  if v < 0 then '-' :: (List.replicate (w - 1 - (natDec v.natAbs).length) '0' ++ natDec v.natAbs)
  else List.replicate (w - (natDec v.natAbs).length) '0' ++ natDec v.natAbs

/-- f"{y:04d}-{m:02d}" building the period key in cmd_list / cmd_export. -/
def fmtPeriod (y m : Int) : String := String.mk (fmtInt0 4 y ++ '-' :: fmtInt0 2 m)

/-- Period-argument resolution shared by cmd_list and cmd_export: the argument
is kept only when both int() slices parse, the raw string is 7 characters with
a hyphen at index 4, and the month is in 1..12; every other input — including
any exception from int() — falls back to the current UTC month. -/
def resolve_period_arg (args : List String) (now : PyDT) : String :=
  match args with
  | [] => strfYM now
  | a :: _ =>
    match pyInt (strTake (pyStrip a) 4), pyInt (strSlice (pyStrip a) 5 7) with
    | some y, some m =>
      if (pyStrip a).length = 7 ∧ (pyStrip a).data.getD 4 ' ' = '-' ∧ 1 ≤ m ∧ m ≤ 12
      then fmtPeriod y m else strfYM now
    | _, _ => strfYM now

/-- WHERE clause of the month-range queries: user_id = ? AND ts >= ? AND
ts < ?. -/
def rangeMatch (uid : Int) (s e : String) (t : TxnRow) : Bool :=
  t.user_id == uid && strLeb s t.ts && strLtb t.ts e

/-- cmd_export row set: transactions in the half-open range joined to their
categories, ascending by timestamp, with ABS(amount) in the amount column.
Row shape: (timestamp, type, amount, category, note). -/
def export_rows (db : DB) (uid : Int) (s e : String) :
    List (String × String × PyF × String × String) :=
  sortByLe (fun a b => !(strLtb b.1 a.1))
    ((db.transactions.filter (rangeMatch uid s e)).flatMap
      (fun t => (db.categories.filter (fun c => c.id == t.category_id)).map
        (fun c => (t.ts, t.ttype, PyF.abs t.amount, c.name, t.note))))

/-- cmd_list row set: the same half-open range, newest first, LIMIT 20. -/
def list_rows (db : DB) (uid : Int) (s e : String) :
    List (String × PyF × String × String × String) :=
  (sortByLe (fun a b => !(strLtb a.1 b.1))
    ((db.transactions.filter (rangeMatch uid s e)).flatMap
      (fun t => (db.categories.filter (fun c => c.id == t.category_id)).map
        (fun c => (t.ts, t.amount, c.name, t.note, t.ttype))))).take 20

/-- Signed re-summing of an export row: income rows count positive, everything
else negative (type is constrained to expense/income by the schema). -/
def exportSigned (r : String × String × PyF × String × String) : PyF :=
  if r.2.1 == "income" then r.2.2.1 else PyF.neg r.2.2.1

/-- Sum of the signed export amounts. -/
def exportNet (l : List (String × String × PyF × String × String)) : PyF :=
  pySum (l.map exportSigned)

/-- Sum of the (absolute) amounts of the export rows of one kind. -/
def exportKindSum (kind : String) (l : List (String × String × PyF × String × String)) : PyF :=
  pySum ((l.filter (fun r => r.2.1 == kind)).map (fun r => r.2.2.1))

/-- The three start bounds computed per digested user in send_daily_digest:
month start, y0 = midnight of the previous day, y1 = midnight of the current
day. y1 is computed but never used by the code. -/
def digest_bounds (now : PyDT) : String × String × String :=
  (isoUtc (monthStart now), isoUtc (dayStart (minusOneDay now)), isoUtc (dayStart now))

/-- Hour gate of the digest fan-out: a user is digested when the stored hour
(the constant 18 when NULL) equals the current UTC hour. -/
def digest_fires (u : UserRow) (now : PyDT) : Bool :=
  (u.digest_hour_utc.getD DAILY_DIGEST_HOUR_UTC) == (now.hour : Int)

/-- Digest aggregates for one user: the month aggregate is queried from the
month start, the "today" aggregate from y0 (midnight of the previous day); the
none result models the "%.2f" TypeError on a NULL aggregate. -/
def digest_values (db : DB) (uid : Int) (now : PyDT) :
    Option ((PyF × PyF × PyF) × (PyF × PyF × PyF)) :=
  let fm := (digest_bounds now).1
  let y0 := (digest_bounds now).2.1
  match get_totals db uid fm, get_totals db uid y0 with
  | (some a, some b, some c), (some a2, some b2, some c2) => some ((a, b, c), (a2, b2, c2))
  | _, _ => none

/-- Constant tail "-01T00:00:00Z" of a month-start ISO string. -/
def monthTail : List Char :=
  '-' :: pad2 1 ++ 'T' :: pad2 0 ++ ':' :: pad2 0 ++ ':' :: pad2 0 ++ ['Z']

/-- Character data of the ISO string of the first instant of month (y, m). -/
def startData (y m : Nat) : List Char := pad4 y ++ '-' :: (pad2 m ++ monthTail)

/-- Linear month index: months compare as their keys. -/
def monthKey (y m : Nat) : Nat := 12 * y + (m - 1)

/-- Successor month with December rollover, as month_bounds_utc computes it. -/
def nextYM (y m : Nat) : Nat × Nat := if m = 12 then (y + 1, 1) else (y, m + 1)

/-- Half-open range membership on timestamp strings: ts >= s AND ts < e. -/
def inRange (ts s e : String) : Bool := strLeb s ts && strLtb ts e

/-- Finite-value extractor (0 on specials), used only under all-finite
hypotheses. -/
def ratOf : PyF → ℚ
  | .fin q => q
  | _ => 0

/-- Store with a single expense of 250 in June 2024 for user 1 (category 1
exists for the join-free totals query). -/
def dbOneExpense : DB :=
  { users := [⟨1, some 18⟩],
    categories := [⟨1, 1, "coffee", "expense"⟩],
    transactions := [⟨1, 1, .fin (-250), 1, "2024-06-05T10:00:00Z", "coffee morning", "expense"⟩],
    budgets := [], nextCat := 2, nextTxn := 2, nextBudget := 1 }

/-- Store for the digest scenario: user 1 (digest hour 18) with a single
expense of 100 recorded the previous day at noon. -/
def dbYesterday : DB :=
  { users := [⟨1, some 18⟩],
    categories := [⟨1, 1, "taxi", "expense"⟩],
    transactions := [⟨1, 1, .fin (-100), 1, "2024-03-14T12:00:00Z", "taxi", "expense"⟩],
    budgets := [], nextCat := 2, nextTxn := 2, nextBudget := 1 }

/-- Unsorted export row set (ORDER BY only permutes it). -/
def flatRows (cats : List CatRow) (l : List TxnRow) :
    List (String × String × PyF × String × String) :=
  l.flatMap (fun t => (cats.filter (fun c => c.id == t.category_id)).map
    (fun c => (t.ts, t.ttype, PyF.abs t.amount, c.name, t.note)))

example : pyInt " 2024" = some 2024 := by decide
example : pyInt "abc" = none := by decide
example : pyFloatOfString "-250" = some (.fin (-250)) := by decide
example : pyFloatOfString "inf" = some .pinf := by decide
example : pyFloatOfString "nan" = some .nan := by decide
example : pyFloatOfString "1,5" = none := by decide
example : pyFloatOfString (commaToDot "1,5") = some (.fin (3 / 2)) := by
  simp [pyFloatOfString, commaToDot, pyStrip, pyIsSpace, parseDecimal, parseMantissa,
    decDigits, digitVal]
  norm_num
example : pySplit "  coffee  morning " = ["coffee", "morning"] := by decide
example : strLtb "2024-02-29T23:59:59Z" "2024-03-01T00:00:00Z" = true := by decide
example : month_bounds_utc 2024 2 = some ("2024-02-01T00:00:00Z", "2024-03-01T00:00:00Z") := by
  decide
example : month_bounds_utc 2024 12 = some ("2024-12-01T00:00:00Z", "2025-01-01T00:00:00Z") := by
  decide
example : month_bounds_utc 2024 13 = none := by decide

/-! ## Order lemmas for the BINARY text comparison -/

theorem listLtb_self (l : List Char) : listLtb l l = false := by
  induction l with
  | nil => rfl
  | cons c cs ih => simp [listLtb, ih]

theorem listLtb_cons_same (c : Char) (as bs : List Char) :
    listLtb (c :: as) (c :: bs) = listLtb as bs := by
  simp [listLtb]

theorem listLtb_lt_of_le (a b c : List Char) (h1 : listLtb a b = true)
    (h2 : listLtb c b = false) : listLtb a c = true := by
  induction a generalizing b c with
  | nil =>
    cases b with
    | nil => simp [listLtb] at h1
    | cons b0 bs =>
      cases c with
      | nil => simp [listLtb] at h2
      | cons c0 cs => simp [listLtb]
  | cons a0 as ih =>
    cases b with
    | nil => simp [listLtb] at h1
    | cons b0 bs =>
      cases c with
      | nil => simp [listLtb] at h2
      | cons c0 cs =>
        simp only [listLtb] at h1 h2 ⊢
        by_cases h3 : a0.toNat < c0.toNat
        · simp [h3]
        · by_cases h4 : c0.toNat < a0.toNat
          · exfalso
            by_cases hab : a0.toNat < b0.toNat <;> by_cases hcb : c0.toNat < b0.toNat <;>
              simp [hab, hcb] at h1 h2 <;> omega
          · simp only [if_neg h3, if_neg h4]
            by_cases hab : a0.toNat < b0.toNat
            · exfalso
              simp [show c0.toNat < b0.toNat by omega] at h2
            · by_cases hba : b0.toNat < a0.toNat
              · simp [hab, hba] at h1
              · simp only [if_neg hab, if_neg hba] at h1
                simp only [if_neg (show ¬(c0.toNat < b0.toNat) by omega),
                  if_neg (show ¬(b0.toNat < c0.toNat) by omega)] at h2
                exact ih bs cs h1 h2

theorem digitChar_toNat : ∀ d, d < 10 → (digitChar d).toNat = 48 + d := by decide

theorem pad2_append_lt (a b : Nat) (r s : List Char) (ha : a < 100) (hb : b < 100) :
    listLtb (pad2 a ++ r) (pad2 b ++ s) =
      (if a < b then true else if b < a then false else listLtb r s) := by
  have h1 : a / 10 < 10 := by omega
  have h2 : b / 10 < 10 := by omega
  have h3 : a % 10 < 10 := by omega
  have h4 : b % 10 < 10 := by omega
  simp only [pad2, List.cons_append, List.nil_append, listLtb,
    digitChar_toNat _ h1, digitChar_toNat _ h2, digitChar_toNat _ h3, digitChar_toNat _ h4]
  split_ifs <;> first | rfl | omega

theorem isoUtc_first (y m : Nat) :
    isoUtc ⟨y, m, 1, 0, 0, 0, 0⟩ = String.mk (startData y m) := by
  simp [isoUtc, startData, monthTail, pad2, digitChar]

theorem startData_lt_iff (y m y2 m2 : Nat) (hy : y < 10000) (hy2 : y2 < 10000)
    (hm1 : 1 ≤ m) (hm : m ≤ 12) (hm21 : 1 ≤ m2) (hm2 : m2 ≤ 12) :
    (listLtb (startData y m) (startData y2 m2) = true) ↔ monthKey y m < monthKey y2 m2 := by
  have e1 : startData y m =
      pad2 (y / 100) ++ (pad2 (y % 100) ++ ('-' :: (pad2 m ++ monthTail))) := by
    simp [startData, pad4, List.append_assoc]
  have e2 : startData y2 m2 =
      pad2 (y2 / 100) ++ (pad2 (y2 % 100) ++ ('-' :: (pad2 m2 ++ monthTail))) := by
    simp [startData, pad4, List.append_assoc]
  rw [e1, e2, pad2_append_lt _ _ _ _ (by omega) (by omega)]
  rw [pad2_append_lt _ _ _ _ (by omega) (by omega), listLtb_cons_same,
    pad2_append_lt _ _ _ _ (by omega) (by omega), listLtb_self]
  split_ifs <;> simp [monthKey] <;> omega

theorem daysInMonth_pos (y m : Nat) : 1 ≤ daysInMonth y m := by
  unfold daysInMonth; split_ifs <;> omega

theorem monthKey_nextYM (y m : Nat) (hm1 : 1 ≤ m) (hm : m ≤ 12) :
    monthKey (nextYM y m).1 (nextYM y m).2 = monthKey y m + 1 := by
  unfold nextYM monthKey; split_ifs <;> omega

theorem mkDT_valid (y m : Int) (hy1 : 1 ≤ y) (hy : y ≤ 9999) (hm1 : 1 ≤ m) (hm : m ≤ 12) :
    mkDT y m 1 = some ⟨y.toNat, m.toNat, 1, 0, 0, 0, 0⟩ := by
  unfold mkDT
  rw [if_pos]
  · norm_num
  · refine ⟨hy1, hy, hm1, hm, by norm_num, ?_⟩
    have h := daysInMonth_pos y.toNat m.toNat
    exact_mod_cast h

theorem month_bounds_utc_eq (y m : Int) (hy1 : 1 ≤ y) (hy : y ≤ 9998) (hm1 : 1 ≤ m)
    (hm : m ≤ 12) :
    month_bounds_utc y m =
      some (String.mk (startData y.toNat m.toNat),
            String.mk (startData (nextYM y.toNat m.toNat).1 (nextYM y.toNat m.toNat).2)) := by
  unfold month_bounds_utc
  by_cases h12 : m = 12
  · subst h12
    rw [mkDT_valid y 12 hy1 (by omega) (by norm_num) (by norm_num)]
    have h2 : mkDT (y + 1) 1 1 = some ⟨(y + 1).toNat, (1 : Int).toNat, 1, 0, 0, 0, 0⟩ :=
      mkDT_valid (y + 1) 1 (by omega) (by omega) (by norm_num) (by norm_num)
    have ha : (y + 1).toNat = y.toNat + 1 := by omega
    have hb : (1 : Int).toNat = 1 := by decide
    have hc : (12 : Int).toNat = 12 := by decide
    rw [ha, hb] at h2
    have hn : nextYM y.toNat 12 = (y.toNat + 1, 1) := by simp [nextYM]
    simp [show ((12 : Int) == 12) = true from rfl, h2, hc, isoUtc_first, hn]
  · have hmb : ((m == 12) : Bool) = false := by
      simp [h12]
    rw [mkDT_valid y m hy1 (by omega) hm1 hm]
    have h2 : mkDT y (m + 1) 1 = some ⟨y.toNat, (m + 1).toNat, 1, 0, 0, 0, 0⟩ :=
      mkDT_valid y (m + 1) (by omega) (by omega) (by omega) (by omega)
    have hb : (m + 1).toNat = m.toNat + 1 := by omega
    rw [hb] at h2
    have hn : nextYM y.toNat m.toNat = (y.toNat, m.toNat + 1) := by
      simp only [nextYM, if_neg (show ¬(m.toNat = 12) by omega)]
    simp [hmb, h2, isoUtc_first, hn]

theorem rangeMatch_eq_inRange (uid : Int) (s e : String) (t : TxnRow) :
    rangeMatch uid s e t = (t.user_id == uid && inRange t.ts s e) := by
  simp [rangeMatch, inRange, Bool.and_assoc]

/-- A month's first instant lies inside that month's own half-open range. -/
theorem month_first_instant_in_own_range (y m : Nat) (hy1 : 1 ≤ y) (hy : y ≤ 9998)
    (hm1 : 1 ≤ m) (hm : m ≤ 12) :
    inRange (String.mk (startData y m)) (String.mk (startData y m))
      (String.mk (startData (nextYM y m).1 (nextYM y m).2)) = true := by
  unfold inRange strLeb strLtb
  have hself : listLtb (String.mk (startData y m)).data (String.mk (startData y m)).data = false := by
    simpa using listLtb_self (startData y m)
  have hnext : listLtb (String.mk (startData y m)).data
      (String.mk (startData (nextYM y m).1 (nextYM y m).2)).data = true := by
    have hb : (nextYM y m).2 ≤ 12 ∧ 1 ≤ (nextYM y m).2 ∧ (nextYM y m).1 < 10000 := by
      unfold nextYM; split_ifs <;> simp <;> omega
    simpa using (startData_lt_iff y m (nextYM y m).1 (nextYM y m).2 (by omega) (by omega)
      hm1 hm hb.2.1 hb.1).2 (by rw [monthKey_nextYM y m hm1 hm]; omega)
  rw [hself, hnext]
  rfl

/-- Two distinct months have disjoint half-open ranges: no timestamp string is
selected by both. -/
theorem month_ranges_disjoint (y m y2 m2 : Nat) (hy1 : 1 ≤ y) (hy : y ≤ 9998)
    (hm1 : 1 ≤ m) (hm : m ≤ 12) (hy21 : 1 ≤ y2) (hy2 : y2 ≤ 9998) (hm21 : 1 ≤ m2)
    (hm2 : m2 ≤ 12) (hne : ¬(y = y2 ∧ m = m2)) (ts : String) :
    ¬(inRange ts (String.mk (startData y m)) (String.mk (startData (nextYM y m).1 (nextYM y m).2)) = true ∧
      inRange ts (String.mk (startData y2 m2)) (String.mk (startData (nextYM y2 m2).1 (nextYM y2 m2).2)) = true) := by
  have key : ∀ a b a2 b2 : Nat, 1 ≤ a → a ≤ 9998 → 1 ≤ b → b ≤ 12 → 1 ≤ a2 → a2 ≤ 9998 →
      1 ≤ b2 → b2 ≤ 12 → monthKey a b < monthKey a2 b2 →
      ¬(inRange ts (String.mk (startData a b)) (String.mk (startData (nextYM a b).1 (nextYM a b).2)) = true ∧
        inRange ts (String.mk (startData a2 b2)) (String.mk (startData (nextYM a2 b2).1 (nextYM a2 b2).2)) = true) := by
    intro a b a2 b2 ha1 ha ha2 hb hc1 hc hd1 hd hlt
    rintro ⟨hin1, hin2⟩
    unfold inRange strLeb strLtb at hin1 hin2
    simp only [Bool.and_eq_true] at hin1 hin2
    have h1 : listLtb ts.data (String.mk (startData (nextYM a b).1 (nextYM a b).2)).data = true :=
      hin1.2
    have h2 : listLtb ts.data (String.mk (startData a2 b2)).data = false := by
      have h := hin2.1
      cases hb2 : listLtb ts.data (String.mk (startData a2 b2)).data
      · rfl
      · rw [hb2] at h
        simp at h
    have hnb : 1 ≤ (nextYM a b).2 ∧ (nextYM a b).2 ≤ 12 ∧ (nextYM a b).1 < 10000 := by
      unfold nextYM; split_ifs <;> simp <;> omega
    have hle : listLtb (String.mk (startData a2 b2)).data
        (String.mk (startData (nextYM a b).1 (nextYM a b).2)).data = false := by
      cases hb2 : listLtb (String.mk (startData a2 b2)).data
          (String.mk (startData (nextYM a b).1 (nextYM a b).2)).data
      · rfl
      · exfalso
        have := (startData_lt_iff a2 b2 (nextYM a b).1 (nextYM a b).2 (by omega) (by omega)
          hd1 hd hnb.1 hnb.2.1).1 (by simpa using hb2)
        rw [monthKey_nextYM a b ha2 hb] at this
        omega
    have := listLtb_lt_of_le ts.data (String.mk (startData (nextYM a b).1 (nextYM a b).2)).data
      (String.mk (startData a2 b2)).data h1 hle
    rw [this] at h2
    simp at h2
  rcases Nat.lt_trichotomy (monthKey y m) (monthKey y2 m2) with hlt | heq | hlt
  · exact key y m y2 m2 hy1 hy hm1 hm hy21 hy2 hm21 hm2 hlt
  · exfalso
    unfold monthKey at heq
    exact hne (by omega)
  · intro hpair
    exact key y2 m2 y m hy21 hy2 hm21 hm2 hy1 hy hm1 hm hlt ⟨hpair.2, hpair.1⟩

/-! ## Arithmetic lemmas for sums and rounding -/

theorem foldl_add_fin (l : List PyF) (q : ℚ) (h : ∀ x ∈ l, ∃ r : ℚ, x = .fin r) :
    l.foldl PyF.add (.fin q) = .fin (q + (l.map ratOf).sum) := by
  induction l generalizing q with
  | nil => simp
  | cons x xs ih =>
    obtain ⟨r, rfl⟩ := h x (by simp)
    simp only [List.foldl_cons, List.map_cons, List.sum_cons, PyF.add, ratOf]
    rw [ih (q + r) (fun y hy => h y (by simp [hy]))]
    congr 1
    ring

theorem pySum_fin (l : List PyF) (h : ∀ x ∈ l, ∃ r : ℚ, x = .fin r) :
    pySum l = .fin ((l.map ratOf).sum) := by
  simpa [pySum] using foldl_add_fin l 0 h

/-- ROUND(x, 2) is the identity on integer multiples of 1/100. -/
theorem round2q_cents (k : ℤ) : round2q ((k : ℚ) / 100) = (k : ℚ) / 100 := by
  unfold round2q
  have h100 : ((k : ℚ) / 100) * 100 = (k : ℚ) := by field_simp
  have hneg : -((k : ℚ) / 100) * 100 = ((-k : ℤ) : ℚ) := by push_cast; field_simp
  split_ifs with h
  · rw [h100, Int.floor_int_add]
    norm_num
  · rw [hneg, Int.floor_int_add]
    have : ⌊(1 : ℚ) / 2⌋ = 0 := by norm_num
    rw [this]
    push_cast
    ring

/-! ## Claim C9 -/

/-- C9: resolveOrCreate (upsert_category) is idempotent. For every store, user,
name and kind: the second of two identical calls leaves the store unchanged,
both calls return the same (present) category identity, and the two calls
together create at most one row. -/
theorem c9_upsert_category_idempotent (db : DB) (uid : Int) (name ttype : String) :
    (upsert_category (upsert_category db uid name ttype).1 uid name ttype).1 =
        (upsert_category db uid name ttype).1 ∧
    (upsert_category (upsert_category db uid name ttype).1 uid name ttype).2 =
        (upsert_category db uid name ttype).2 ∧
    (upsert_category db uid name ttype).2.isSome = true ∧
    (upsert_category db uid name ttype).1.categories.length ≤ db.categories.length + 1 := by
  by_cases h : db.categories.any (catMatch uid (pyLower name) ttype) = true
  · have hfind : (db.categories.find? (catMatch uid (pyLower name) ttype)).isSome = true := by
      obtain ⟨c, hc, hpc⟩ := List.any_eq_true.mp h
      exact List.find?_isSome.mpr ⟨c, hc, hpc⟩
    simp [upsert_category, h, hfind]
  · have hpred : catMatch uid (pyLower name) ttype
        ⟨db.nextCat, uid, pyLower name, ttype⟩ = true := by
      simp [catMatch]
    have h2 : (db.categories ++ [(⟨db.nextCat, uid, pyLower name, ttype⟩ : CatRow)]).any
        (catMatch uid (pyLower name) ttype) = true := by
      simp [List.any_append, hpred]
    have hfind : ((db.categories ++ [(⟨db.nextCat, uid, pyLower name, ttype⟩ : CatRow)]).find?
        (catMatch uid (pyLower name) ttype)).isSome = true := by
      apply List.find?_isSome.mpr
      exact ⟨⟨db.nextCat, uid, pyLower name, ttype⟩, by simp, hpred⟩
    simp [upsert_category, h, h2, hfind]
    exact Or.inr hpred

/-! ## Claim C8 -/

theorem ensure_user_categories (db : DB) (uid : Int) :
    (ensure_user db uid).categories = db.categories := by
  unfold ensure_user; split_ifs <;> rfl

theorem ensure_user_budgets (db : DB) (uid : Int) :
    (ensure_user db uid).budgets = db.budgets := by
  unfold ensure_user; split_ifs <;> rfl

theorem budget_upsert_categories (db : DB) (uid : Int) (cid : Nat) (period : String) (a : PyF) :
    (budget_upsert db uid cid period a).categories = db.categories := by
  unfold budget_upsert; split_ifs <;> rfl

theorem upsert_category_budgets (db : DB) (uid : Int) (name ttype : String) :
    (upsert_category db uid name ttype).1.budgets = db.budgets := by
  unfold upsert_category
  by_cases h : db.categories.any (catMatch uid (pyLower name) ttype) = true <;> simp [h]

theorem resolve_category_congr (db db2 : DB) (uid : Int) (cat : String)
    (h : db.categories = db2.categories) :
    resolve_category db uid cat = resolve_category db2 uid cat := by
  simp [resolve_category, h]

theorem budgetKey_update (uid : Int) (cid : Nat) (period : String) (a : PyF) (b : BudgetRow) :
    budgetKey uid cid period { b with amount := a } = budgetKey uid cid period b := by
  simp [budgetKey]

theorem budget_upsert_spec (db : DB) (uid : Int) (cid : Nat) (period : String) (a : PyF)
    (hinv : (db.budgets.filter (budgetKey uid cid period)).length ≤ 1) :
    (∃ b : BudgetRow, (budget_upsert db uid cid period a).budgets.filter
        (budgetKey uid cid period) = [b] ∧ b.amount = a) ∧
    (budget_upsert db uid cid period a).budgets.length =
      (if db.budgets.any (budgetKey uid cid period) then db.budgets.length
       else db.budgets.length + 1) := by
  by_cases h : db.budgets.any (budgetKey uid cid period) = true
  · have hmapfilter : ∀ l : List BudgetRow,
        (l.map (fun b => if budgetKey uid cid period b then { b with amount := a } else b)).filter
            (budgetKey uid cid period) =
          (l.filter (budgetKey uid cid period)).map (fun b => { b with amount := a }) := by
      intro l
      induction l with
      | nil => rfl
      | cons x xs ih =>
        by_cases hx : budgetKey uid cid period x = true
        · simp [hx, List.filter_cons, budgetKey_update, ih]
        · simp [hx, List.filter_cons, budgetKey_update, ih]
    obtain ⟨x, hxmem, hxkey⟩ := List.any_eq_true.mp h
    have hlen1 : (db.budgets.filter (budgetKey uid cid period)).length = 1 := by
      have : 0 < (db.budgets.filter (budgetKey uid cid period)).length := by
        have : x ∈ db.budgets.filter (budgetKey uid cid period) :=
          List.mem_filter.mpr ⟨hxmem, hxkey⟩
        exact List.length_pos.mpr (List.ne_nil_of_mem this)
      omega
    obtain ⟨b, hb⟩ := List.length_eq_one.mp hlen1
    refine ⟨⟨{ b with amount := a }, ?_, rfl⟩, ?_⟩
    · simp only [budget_upsert, h, if_true]
      rw [hmapfilter, hb]
      rfl
    · simp [budget_upsert, h]
  · have hnil : db.budgets.filter (budgetKey uid cid period) = [] := by
      rw [List.filter_eq_nil_iff]
      intro x hx hk
      exact h (List.any_eq_true.mpr ⟨x, hx, hk⟩)
    have hnew : budgetKey uid cid period ⟨db.nextBudget, uid, cid, period, a⟩ = true := by
      simp [budgetKey]
    refine ⟨⟨⟨db.nextBudget, uid, cid, period, a⟩, ?_, rfl⟩, ?_⟩
    · simp only [budget_upsert, h, if_false]
      simp [List.filter_append, hnil, hnew]
    · simp [budget_upsert, h]

theorem upsert_category_new (db : DB) (uid : Int) (cat ttype : String)
    (hany : db.categories.any (catMatch uid (pyLower cat) ttype) = false) :
    upsert_category db uid cat ttype =
      ({ db with categories := db.categories ++ [⟨db.nextCat, uid, pyLower cat, ttype⟩],
                 nextCat := db.nextCat + 1 }, some db.nextCat) := by
  have hnone : db.categories.find? (catMatch uid (pyLower cat) ttype) = none := by
    rw [List.find?_eq_none]
    exact fun x hx => (List.any_eq_false.mp hany) x hx
  have hpred : catMatch uid (pyLower cat) ttype ⟨db.nextCat, uid, pyLower cat, ttype⟩ = true := by
    simp [catMatch]
  unfold upsert_category
  simp [hany, List.find?_append, hnone, List.find?_cons, hpred]

theorem resolve_or_create_spec (db : DB) (uid : Int) (cat : String) :
    ∃ db1 cid,
      (match resolve_category db uid cat with
       | some c => (db, some c)
       | none => upsert_category db uid cat "expense") = (db1, some cid) ∧
      db1.budgets = db.budgets ∧ db1.transactions = db.transactions ∧
      resolve_category db1 uid cat = some cid := by
  cases hr : resolve_category db uid cat with
  | some c => exact ⟨db, c, rfl, rfl, rfl, hr⟩
  | none =>
    have hfind : db.categories.find? (catMatch uid (pyLower cat) "expense") = none := by
      unfold resolve_category at hr
      cases hf : db.categories.find? (catMatch uid (pyLower cat) "expense")
      · rfl
      · rw [hf] at hr; simp at hr
    have hany : db.categories.any (catMatch uid (pyLower cat) "expense") = false := by
      rw [List.any_eq_false]
      exact fun x hx => (List.find?_eq_none.mp hfind) x hx
    have hup := upsert_category_new db uid cat "expense" hany
    refine ⟨(upsert_category db uid cat "expense").1, db.nextCat, ?_, ?_, ?_, ?_⟩
    · show upsert_category db uid cat "expense" =
        ((upsert_category db uid cat "expense").1, some db.nextCat)
      rw [hup]
    · exact upsert_category_budgets db uid cat "expense"
    · rw [hup]
    · rw [hup]
      unfold resolve_category
      have hpred : catMatch uid (pyLower cat) "expense"
          ⟨db.nextCat, uid, pyLower cat, "expense"⟩ = true := by
        simp [catMatch]
      simp [List.find?_append, hfind, List.find?_cons, hpred]

/-- C8: budget upsert is last-write-wins. For every store whose budgets table
satisfies the UNIQUE(user_id, category_id, period) constraint, setting a budget
for the same (user, category name, period) twice succeeds both times, stores
the period string verbatim, and leaves exactly one budget row for the resolved
category with the second amount; the second call adds no row. -/
theorem c8_budget_set_upsert (db : DB) (uid : Int) (catName period : String) (a1 a2 : PyF)
    (now : PyDT)
    (hinv : ∀ cid : Nat, (db.budgets.filter (budgetKey uid cid period)).length ≤ 1) :
    ∃ db1 db2 cid,
      cmd_budget_set_core db uid catName a1 (some period) now = some (db1, period) ∧
      cmd_budget_set_core db1 uid catName a2 (some period) now = some (db2, period) ∧
      resolve_category db2 uid (pyLower catName) = some cid ∧
      (∃ b : BudgetRow, db2.budgets.filter (budgetKey uid cid period) = [b] ∧ b.amount = a2) ∧
      db2.budgets.length = db1.budgets.length := by
  obtain ⟨dbr, cid, hmatch, hbud, htxn, hres⟩ :=
    resolve_or_create_spec (ensure_user db uid) uid (pyLower catName)
  have hbud0 : dbr.budgets = db.budgets := by rw [hbud, ensure_user_budgets]
  set db1 := budget_upsert dbr uid cid period a1 with hdb1
  have hspec1 := budget_upsert_spec dbr uid cid period a1 (by rw [hbud0]; exact hinv cid)
  have hcall1 : cmd_budget_set_core db uid catName a1 (some period) now = some (db1, period) := by
    unfold cmd_budget_set_core
    simp only [Option.getD_some]
    rw [hmatch]
  -- second call
  obtain ⟨b1, hb1, hb1a⟩ := hspec1.1
  have hres1 : resolve_category (ensure_user db1 uid) uid (pyLower catName) = some cid := by
    rw [resolve_category_congr (ensure_user db1 uid) dbr uid (pyLower catName) ?_]
    · exact hres
    · rw [ensure_user_categories, hdb1, budget_upsert_categories]
  set db2 := budget_upsert (ensure_user db1 uid) uid cid period a2 with hdb2
  have hb1len : ((ensure_user db1 uid).budgets.filter (budgetKey uid cid period)).length ≤ 1 := by
    rw [ensure_user_budgets, hb1]
    simp
  have hspec2 := budget_upsert_spec (ensure_user db1 uid) uid cid period a2 hb1len
  have hcall2 : cmd_budget_set_core db1 uid catName a2 (some period) now = some (db2, period) := by
    unfold cmd_budget_set_core
    simp only [Option.getD_some]
    rw [hres1]
  refine ⟨db1, db2, cid, hcall1, hcall2, ?_, hspec2.1, ?_⟩
  · rw [resolve_category_congr db2 (ensure_user db1 uid) uid (pyLower catName) ?_]
    · exact hres1
    · rw [hdb2, budget_upsert_categories]
  · have hany2 : (ensure_user db1 uid).budgets.any (budgetKey uid cid period) = true := by
      rw [ensure_user_budgets]
      have : b1 ∈ db1.budgets.filter (budgetKey uid cid period) := by rw [hb1]; simp
      have hmem := List.mem_filter.mp this
      exact List.any_eq_true.mpr ⟨b1, hmem.1, hmem.2⟩
    rw [hspec2.2, if_pos hany2, ensure_user_budgets]

/-- Witness for C8 at the spec's example: (user 1, "food", "2024-05"),
1000 then 1500. -/
theorem c8_budget_set_upsert_witness :
    ∃ db1 db2 cid,
      cmd_budget_set_core DB.empty 1 "food" (.fin 1000) (some "2024-05")
          ⟨2024, 5, 10, 12, 0, 0, 0⟩ = some (db1, "2024-05") ∧
      cmd_budget_set_core db1 1 "food" (.fin 1500) (some "2024-05")
          ⟨2024, 5, 10, 12, 0, 0, 0⟩ = some (db2, "2024-05") ∧
      resolve_category db2 1 (pyLower "food") = some cid ∧
      (∃ b : BudgetRow, db2.budgets.filter (budgetKey 1 cid "2024-05") = [b] ∧
        b.amount = .fin 1500) ∧
      db2.budgets.length = db1.budgets.length :=
  c8_budget_set_upsert DB.empty 1 "food" "2024-05" (.fin 1000) (.fin 1500)
    ⟨2024, 5, 10, 12, 0, 0, 0⟩ (fun _ => by simp [DB.empty])

/-! ## Claim C2 -/

/-- C2 (code bug at the empty selection): when no transaction of the user has
timestamp >= start, get_totals returns the SQL NULL triple (None, None, None),
not zeros — SQLite SUM over zero rows is NULL — and cmd_sum's `row or (0,0,0)`
fallback never fires because a tuple of three Nones is truthy, so the "%.2f"
formatting raises TypeError (the none result). When rows do match, the sums
are computed as the claim states (shown on a store holding one expense of
250). -/
theorem c2_totals_nulls_not_zeros_on_empty :
    get_totals DB.empty 1 "2024-06-01T00:00:00Z" = (none, none, none) ∧
    ((none, none, none) : Option PyF × Option PyF × Option PyF) ≠
      (some (.fin 0), some (.fin 0), some (.fin 0)) ∧
    cmd_sum_values DB.empty 1 ⟨2024, 6, 15, 10, 0, 0, 0⟩ = none ∧
    get_totals dbOneExpense 1 "2024-06-01T00:00:00Z" =
      (some (.fin 0), some (.fin 250), some (.fin (-250))) := by
  refine ⟨rfl, by decide, rfl, ?_⟩
  simp [get_totals, dbOneExpense, totalsMatch, strLeb, strLtb, listLtb, pySum, PyF.add,
    PyF.abs, PyF.round2, round2q]
  norm_num

/-! ## Claim C1 -/

/-- C1 (code bug): at the hour boundary 2024-03-15T18:00:30Z the digest fires
for the user whose hour is 18, and its month aggregate starts at the month's
first instant; but the "today" aggregate is queried from y0 — midnight of the
PREVIOUS day — although y1, midnight of the current day, is computed (and then
never used). Hence the previous day's expense of 100 shows up in the "today"
aggregate, while the aggregate the claim describes (from the current day's
midnight) would see no rows at all. -/
theorem c1_digest_today_uses_previous_midnight :
    digest_fires ⟨1, some 18⟩ ⟨2024, 3, 15, 18, 0, 30, 0⟩ = true ∧
    digest_bounds ⟨2024, 3, 15, 18, 0, 30, 0⟩ =
      ("2024-03-01T00:00:00Z", "2024-03-14T00:00:00Z", "2024-03-15T00:00:00Z") ∧
    digest_values dbYesterday 1 ⟨2024, 3, 15, 18, 0, 30, 0⟩ =
      some ((.fin 0, .fin 100, .fin (-100)), (.fin 0, .fin 100, .fin (-100))) ∧
    get_totals dbYesterday 1 "2024-03-15T00:00:00Z" = (none, none, none) := by
  refine ⟨rfl, rfl, ?_, rfl⟩
  simp [digest_values, digest_bounds, get_totals, dbYesterday, totalsMatch, strLeb, strLtb,
    listLtb, pySum, PyF.add, PyF.abs, PyF.round2, round2q, isoUtc, monthStart, dayStart,
    minusOneDay, daysInMonth, pad2, pad4, pad6, digitChar]
  norm_num

/-! ## Claims C10 and C4 -/

theorem ensure_user_transactions (db : DB) (uid : Int) :
    (ensure_user db uid).transactions = db.transactions := by
  unfold ensure_user; split_ifs <;> rfl

theorem upsert_category_shape (db : DB) (uid : Int) (name ttype : String) :
    ∃ db1 cid, upsert_category db uid name ttype = (db1, some cid) ∧
      db1.transactions = db.transactions ∧ db1.users = db.users ∧
      db1.budgets = db.budgets ∧ db1.nextTxn = db.nextTxn := by
  by_cases h : db.categories.any (catMatch uid (pyLower name) ttype) = true
  · obtain ⟨c, hc, hpc⟩ := List.any_eq_true.mp h
    have hfind : (db.categories.find? (catMatch uid (pyLower name) ttype)).isSome = true :=
      List.find?_isSome.mpr ⟨c, hc, hpc⟩
    obtain ⟨c2, hc2⟩ := Option.isSome_iff_exists.mp hfind
    refine ⟨db, c2.id, ?_, rfl, rfl, rfl, rfl⟩
    unfold upsert_category
    simp [h, hc2]
  · have hup := upsert_category_new db uid name ttype (by simpa using h)
    exact ⟨_, db.nextCat, hup, rfl, rfl, rfl, rfl⟩

theorem add_txn_core_spec (db : DB) (uid : Int) (a : PyF) (note cn ttype : String) (now : PyDT)
    (hcn : catNameOf note = some cn) :
    ∃ (db1 : DB) (cid : Nat), add_txn_core db uid a note ttype now =
      some ({ db1 with transactions := db1.transactions ++
          [⟨db1.nextTxn, uid, (if ttype == "income" then a else PyF.neg (PyF.abs a)), cid,
            isoUtc now, note, ttype⟩], nextTxn := db1.nextTxn + 1 }, cn) ∧
      db1.transactions = db.transactions := by
  obtain ⟨db1, cid, hup, htx, hus, hbu, hnx⟩ := upsert_category_shape (ensure_user db uid) uid cn ttype
  refine ⟨db1, cid, ?_, by rw [htx, ensure_user_transactions]⟩
  simp only [add_txn_core, hcn, hup]

theorem add_txn_core_last (db : DB) (uid : Int) (a : PyF) (note cn ttype : String) (now : PyDT)
    (hcn : catNameOf note = some cn) :
    (add_txn_core db uid a note ttype now).map
        (fun r => r.1.transactions.getLast?.map (fun t => (t.amount, t.ttype))) =
      some (some ((if ttype == "income" then a else PyF.neg (PyF.abs a)), ttype)) := by
  obtain ⟨db1, cid, heq, -⟩ := add_txn_core_spec db uid a note cn ttype now hcn
  rw [heq]
  simp [List.getLast?_concat]

/-- C10: the amount parser accepts every float()-parsable token after the
comma-to-dot replacement — including negative ("-250") and non-finite ("inf",
"nan") values — and the record operation applies no sign normalization or
finiteness check for income kind: the stored income amount is exactly the
parsed value for every PyF, and the /inc command with argument "-250" persists
an income transaction whose stored amount is the negative -250. -/
theorem c10_parser_lenient_income_unnormalized :
    parse_amount_and_note ["-250"] = ⟨some (.fin (-250)), ""⟩ ∧
    parse_amount_and_note ["inf"] = ⟨some .pinf, ""⟩ ∧
    parse_amount_and_note ["nan"] = ⟨some .nan, ""⟩ ∧
    (∀ (db : DB) (uid : Int) (a : PyF) (now : PyDT),
      (add_txn_core db uid a "" "income" now).map
          (fun r => r.1.transactions.getLast?.map (fun t => (t.amount, t.ttype))) =
        some (some (a, "income"))) ∧
    (add_txn DB.empty 1 ["-250"] "income" ⟨2024, 6, 15, 10, 0, 0, 0⟩).map
        (fun r => r.1.transactions.getLast?.map (fun t => (t.amount, t.ttype))) =
      some (some (.fin (-250), "income")) ∧
    (-250 : ℚ) < 0 := by
  refine ⟨by decide, by decide, by decide, ?_, ?_, by norm_num⟩
  · intro db uid a now
    simpa using add_txn_core_last db uid a "" (pyLower "прочее") "income" now rfl
  · have h := add_txn_core_last DB.empty 1 (.fin (-250)) "" (pyLower "прочее") "income"
      ⟨2024, 6, 15, 10, 0, 0, 0⟩ rfl
    have harg : add_txn DB.empty 1 ["-250"] "income" ⟨2024, 6, 15, 10, 0, 0, 0⟩ =
        add_txn_core DB.empty 1 (.fin (-250)) "" "income" ⟨2024, 6, 15, 10, 0, 0, 0⟩ := by
      unfold add_txn
      have hp : parse_amount_and_note ["-250"] = ⟨some (.fin (-250)), ""⟩ := by decide
      rw [hp]
    rw [harg]
    simpa using h

/-- C4 counterexample: the amount parser accepts the magnitude -250, and
recording it with kind income stores amount -250, which is negative — so the
claimed invariant "kind=income ⇒ stored amount ≥ 0 for every parser-accepted
magnitude" fails, as does "stored = -magnitude for expense / +magnitude for
income" read over all accepted magnitudes. -/
theorem c4_counterexample_negative_income :
    parse_amount_and_note ["-250"] = ⟨some (.fin (-250)), ""⟩ ∧
    (add_txn_core DB.empty 1 (.fin (-250)) "" "income" ⟨2024, 6, 15, 10, 0, 0, 0⟩).map
        (fun r => r.1.transactions.getLast?.map (fun t => (t.amount, t.ttype))) =
      some (some (.fin (-250), "income")) ∧
    ¬(0 ≤ (-250 : ℚ)) := by
  refine ⟨by decide, ?_, by norm_num⟩
  simpa using add_txn_core_last DB.empty 1 (.fin (-250)) "" (pyLower "прочее") "income"
    ⟨2024, 6, 15, 10, 0, 0, 0⟩ rfl

/-- C4 amended: for nonnegative finite magnitudes (the spec's input
constraint), the sign invariant holds as claimed: expense stores exactly
-magnitude, which is ≤ 0 and zero only for zero magnitude; income stores
exactly +magnitude, which is ≥ 0. -/
theorem c4_amended_sign_invariant (db : DB) (uid : Int) (q : ℚ) (note cn : String)
    (now : PyDT) (hq : 0 ≤ q) (hcn : catNameOf note = some cn) :
    ((add_txn_core db uid (.fin q) note "expense" now).map
        (fun r => r.1.transactions.getLast?.map (fun t => (t.amount, t.ttype)))) =
      some (some (.fin (-q), "expense")) ∧
    -q ≤ 0 ∧ (0 < q → -q < 0) ∧ (q = 0 → -q = 0) ∧
    ((add_txn_core db uid (.fin q) note "income" now).map
        (fun r => r.1.transactions.getLast?.map (fun t => (t.amount, t.ttype)))) =
      some (some (.fin q, "income")) ∧
    0 ≤ q := by
  refine ⟨?_, by linarith, fun h => by linarith, fun h => by rw [h]; ring, ?_, hq⟩
  · have h := add_txn_core_last db uid (.fin q) note cn "expense" now hcn
    simpa [PyF.abs, PyF.neg, abs_of_nonneg hq] using h
  · simpa using add_txn_core_last db uid (.fin q) note cn "income" now hcn

/-- Witness for the amended C4 at magnitude 250 with note "кофе". -/
theorem c4_amended_sign_invariant_witness :
    (0 ≤ (250 : ℚ)) ∧ catNameOf "кофе" = some "кофе" ∧
    (((add_txn_core DB.empty 1 (.fin 250) "кофе" "expense" ⟨2024, 6, 15, 10, 0, 0, 0⟩).map
        (fun r => r.1.transactions.getLast?.map (fun t => (t.amount, t.ttype)))) =
      some (some (.fin (-250), "expense")) ∧
    -(250 : ℚ) ≤ 0 ∧ (0 < (250 : ℚ) → -(250 : ℚ) < 0) ∧ ((250 : ℚ) = 0 → -(250 : ℚ) = 0) ∧
    ((add_txn_core DB.empty 1 (.fin 250) "кофе" "income" ⟨2024, 6, 15, 10, 0, 0, 0⟩).map
        (fun r => r.1.transactions.getLast?.map (fun t => (t.amount, t.ttype)))) =
      some (some (.fin 250, "income")) ∧
    0 ≤ (250 : ℚ)) :=
  ⟨by norm_num, by decide,
    c4_amended_sign_invariant DB.empty 1 250 "кофе" "кофе" ⟨2024, 6, 15, 10, 0, 0, 0⟩
      (by norm_num) (by decide)⟩

/-! ## Claim C6 -/

theorem pySplitAux_ne_nil (l : List Char) : ∀ acc : List Char,
    ((∃ c ∈ l, pyIsSpace c = false) ∨ acc ≠ []) → pySplitAux l acc ≠ [] := by
  induction l with
  | nil =>
    intro acc h
    rcases h with h | h
    · simp at h
    · simp only [pySplitAux]
      rw [if_neg (by simpa using h)]
      simp
  | cons c cs ih =>
    intro acc h
    by_cases hc : pyIsSpace c = true
    · simp only [pySplitAux, hc, if_true]
      by_cases ha : acc.isEmpty = true
      · rw [if_pos ha]
        apply ih []
        left
        rcases h with h | h
        · obtain ⟨x, hx, hxs⟩ := h
          rcases List.mem_cons.mp hx with rfl | hx2
          · rw [hc] at hxs; simp at hxs
          · exact ⟨x, hx2, hxs⟩
        · exact absurd (List.isEmpty_iff.mp ha) h
      · rw [if_neg ha]; simp
    · have hc2 : pyIsSpace c = false := by simpa using hc
      simp only [pySplitAux, hc2]
      rw [if_neg (by simp)]
      apply ih (c :: acc)
      right
      simp

theorem pySplitAux_all_ws (l : List Char) (h : ∀ c ∈ l, pyIsSpace c = true) :
    pySplitAux l [] = [] := by
  induction l with
  | nil => rfl
  | cons c cs ih =>
    have hc := h c (by simp)
    simp only [pySplitAux, hc, if_true, List.isEmpty_nil]
    exact ih (fun x hx => h x (by simp [hx]))

theorem dropWhile_head_false (p : Char → Bool) : ∀ (l : List Char) (c : Char) (t : List Char),
    l.dropWhile p = c :: t → p c = false := by
  intro l
  induction l with
  | nil => intro c t h; simp [List.dropWhile] at h
  | cons x xs ih =>
    intro c t h
    by_cases hx : p x = true
    · rw [List.dropWhile_cons, if_pos hx] at h
      exact ih c t h
    · rw [List.dropWhile_cons, if_neg hx] at h
      rcases h with ⟨rfl, rfl⟩
      simpa using hx

theorem mem_dropWhile_append_single (p : Char → Bool) (c : Char) (hc : p c = false) :
    ∀ xs : List Char, c ∈ (xs ++ [c]).dropWhile p := by
  intro xs
  induction xs with
  | nil => simp [List.dropWhile, hc]
  | cons x t ih =>
    by_cases hx : p x = true
    · simpa [List.dropWhile_cons, hx] using ih
    · simp [List.dropWhile_cons, hx]

theorem pyStrip_ne_empty_has_nonws (s : String) (h : pyStrip s ≠ "") :
    ∃ c ∈ (pyStrip s).data, pyIsSpace c = false := by
  unfold pyStrip at h ⊢
  rcases hl1 : s.data.dropWhile pyIsSpace with _ | ⟨c, t⟩
  · rw [hl1] at h
    exact absurd rfl h
  · have hc : pyIsSpace c = false := dropWhile_head_false pyIsSpace s.data c t hl1
    refine ⟨c, ?_, hc⟩
    simp only [List.mem_reverse]
    have : (c :: t).reverse = t.reverse ++ [c] := by simp
    rw [this]
    exact mem_dropWhile_append_single pyIsSpace c hc t.reverse

/-- C6 counterexample: the fallback label the code stores is the literal
"прочее", not "misc"; and a nonempty all-whitespace note makes the derivation
raise IndexError (note.split() is empty), so the derivation is not total over
all note strings: add_txn_core crashes on note " ". -/
theorem c6_counterexample_label_and_whitespace :
    catNameOf "" = some "прочее" ∧
    ("прочее" : String) ≠ "misc" ∧
    catNameOf " " = none ∧
    add_txn_core DB.empty 1 (.fin 5) " " "expense" ⟨2024, 6, 15, 10, 0, 0, 0⟩ = none := by
  exact ⟨by decide, by decide, by decide, rfl⟩

/-- C6 amended: the derived category is the literal "прочее" (the
locale-specific misc label) for an empty note, and the lowercased first
whitespace-delimited token for a note containing any non-whitespace character;
a nonempty but all-whitespace note makes the derivation fail. Such a note never
reaches the derivation from the command path, because parse_amount_and_note
strips the note, and a stripped string is either empty or contains a
non-whitespace character. -/
theorem c6_amended_category_derivation (note : String) :
    (note = "" → catNameOf note = some "прочее") ∧
    ((∃ c ∈ note.data, pyIsSpace c = false) →
      ∃ tok, (pySplit note).head? = some tok ∧ catNameOf note = some (pyLower tok)) ∧
    (note ≠ "" → (∀ c ∈ note.data, pyIsSpace c = true) → catNameOf note = none) ∧
    (∀ s : String, pyStrip s = "" ∨ ∃ c ∈ (pyStrip s).data, pyIsSpace c = false) := by
  refine ⟨?_, ?_, ?_, ?_⟩
  · rintro rfl
    decide
  · intro h
    have hne : pySplit note ≠ [] := pySplitAux_ne_nil note.data [] (Or.inl h)
    rcases hsp : pySplit note with _ | ⟨tok, rest⟩
    · exact absurd hsp hne
    · refine ⟨tok, by simp, ?_⟩
      have hnote : note ≠ "" := by
        rintro rfl
        obtain ⟨c, hc, -⟩ := h
        simp at hc
      unfold catNameOf
      rw [if_neg (by simpa using hnote), hsp]
      rfl
  · intro hne hws
    unfold catNameOf
    rw [if_neg (by simpa using hne)]
    have : pySplit note = [] := pySplitAux_all_ws note.data hws
    rw [this]
    rfl
  · intro s
    by_cases h : pyStrip s = ""
    · exact Or.inl h
    · exact Or.inr (pyStrip_ne_empty_has_nonws s h)

/-- Witness for the amended C6 on concrete notes. -/
theorem c6_amended_category_derivation_witness :
    (∃ c ∈ ("coffee morning" : String).data, pyIsSpace c = false) ∧
    (∃ tok, (pySplit "coffee morning").head? = some tok ∧
      catNameOf "coffee morning" = some (pyLower tok)) ∧
    catNameOf "" = some "прочее" ∧
    catNameOf "  " = none :=
  ⟨by decide, (c6_amended_category_derivation "coffee morning").2.1 (by decide),
   (c6_amended_category_derivation "").1 rfl,
   (c6_amended_category_derivation "  ").2.2.1 (by decide) (by decide)⟩

/-! ## Claim C5 -/

/-- C5 counterexample: the budget commands do no period validation. With the
malformed period "2024-13": viewBudgets raises (month 13 makes datetime throw,
and nothing catches it — the none result), and setBudget stores the string
verbatim as the period key instead of replacing it with the current month
("2024-06" at the chosen instant). -/
theorem c5_counterexample_budget_commands_not_lenient :
    cmd_budget_view_rows DB.empty 1 (some "2024-13") ⟨2024, 6, 15, 10, 0, 0, 0⟩ = none ∧
    (cmd_budget_set_core DB.empty 1 "food" (.fin 10) (some "2024-13")
        ⟨2024, 6, 15, 10, 0, 0, 0⟩).map
      (fun r => (r.2, r.1.budgets.map (fun b => b.period))) =
      some ("2024-13", ["2024-13"]) ∧
    strfYM ⟨2024, 6, 15, 10, 0, 0, 0⟩ = "2024-06" ∧
    ("2024-13" : String) ≠ "2024-06" := by
  exact ⟨by decide, by decide, by decide, by decide⟩

/-- C5 amended: the lenient current-month fallback exists only in the list and
export commands — an absent argument, an argument whose int() slices fail to
parse, or one failing the shape check (length 7, hyphen at index 4, month
1..12) is replaced by the current UTC month and never errors there. setBudget
performs no validation and stores any supplied period string verbatim (its
upserted row carries exactly that string), and viewBudgets parses its argument
with no fallback: whenever the sliced year/month make datetime raise (e.g.
month 13), the command errors. -/
theorem c5_amended_fallback_only_in_list_export :
    (∀ now : PyDT, resolve_period_arg [] now = strfYM now) ∧
    (∀ (a : String) (now : PyDT),
      pyInt (strTake (pyStrip a) 4) = none ∨ pyInt (strSlice (pyStrip a) 5 7) = none →
      resolve_period_arg [a] now = strfYM now) ∧
    (∀ (a : String) (now : PyDT) (y m : Int),
      pyInt (strTake (pyStrip a) 4) = some y → pyInt (strSlice (pyStrip a) 5 7) = some m →
      ¬((pyStrip a).length = 7 ∧ (pyStrip a).data.getD 4 ' ' = '-' ∧ 1 ≤ m ∧ m ≤ 12) →
      resolve_period_arg [a] now = strfYM now) ∧
    (∀ (db : DB) (uid : Int) (cat : String) (amt : PyF) (period : String) (now : PyDT),
      ∃ db1 : DB, cmd_budget_set_core db uid cat amt (some period) now = some (db1, period) ∧
        db1.budgets.any (fun b => b.user_id == uid && b.period == period) = true) ∧
    (∀ (db : DB) (uid : Int) (period : String) (now : PyDT) (y m : Int),
      pyInt (strTake period 4) = some y → pyInt (strSlice period 5 7) = some m →
      month_bounds_utc y m = none →
      cmd_budget_view_rows db uid (some period) now = none) := by
  refine ⟨fun now => rfl, ?_, ?_, ?_, ?_⟩
  · intro a now h
    rcases hx : pyInt (strTake (pyStrip a) 4) with _ | y
    · simp only [resolve_period_arg, hx]
    · rcases hy : pyInt (strSlice (pyStrip a) 5 7) with _ | m
      · simp only [resolve_period_arg, hx, hy]
      · rcases h with h | h
        · rw [hx] at h; exact absurd h (by simp)
        · rw [hy] at h; exact absurd h (by simp)
  · intro a now y m hx hy hno
    simp only [resolve_period_arg, hx, hy]
    rw [if_neg hno]
  · intro db uid cat amt period now
    obtain ⟨dbr, cid, hmatch, hbud, htxn, hres⟩ :=
      resolve_or_create_spec (ensure_user db uid) uid (pyLower cat)
    refine ⟨budget_upsert dbr uid cid period amt, ?_, ?_⟩
    · unfold cmd_budget_set_core
      simp only [Option.getD_some]
      rw [hmatch]
    · unfold budget_upsert
      by_cases h : dbr.budgets.any (budgetKey uid cid period) = true
      · rw [if_pos h]
        obtain ⟨x, hxm, hxk⟩ := List.any_eq_true.mp h
        apply List.any_eq_true.mpr
        refine ⟨if budgetKey uid cid period x then { x with amount := amt } else x,
          List.mem_map_of_mem _ hxm, ?_⟩
        simp only [hxk, if_true]
        simp only [budgetKey, Bool.and_eq_true, beq_iff_eq] at hxk
        simp [hxk.1.1, hxk.2]
      · rw [if_neg h]
        apply List.any_eq_true.mpr
        exact ⟨⟨dbr.nextBudget, uid, cid, period, amt⟩, by simp, by simp⟩
  · intro db uid period now y m hx hy hb
    unfold cmd_budget_view_rows
    simp only [Option.getD_some]
    rw [hx, hy]
    dsimp only
    rw [hb]

/-- Witness for the amended C5 at concrete arguments. -/
theorem c5_amended_fallback_witness :
    resolve_period_arg [] ⟨2024, 6, 15, 10, 0, 0, 0⟩ = strfYM ⟨2024, 6, 15, 10, 0, 0, 0⟩ ∧
    resolve_period_arg ["garbage"] ⟨2024, 6, 15, 10, 0, 0, 0⟩ =
      strfYM ⟨2024, 6, 15, 10, 0, 0, 0⟩ ∧
    resolve_period_arg ["2024-13"] ⟨2024, 6, 15, 10, 0, 0, 0⟩ =
      strfYM ⟨2024, 6, 15, 10, 0, 0, 0⟩ ∧
    (∃ db1 : DB, cmd_budget_set_core DB.empty 1 "food" (.fin 10) (some "2024-13")
        ⟨2024, 6, 15, 10, 0, 0, 0⟩ = some (db1, "2024-13") ∧
      db1.budgets.any (fun b => b.user_id == 1 && b.period == "2024-13") = true) ∧
    cmd_budget_view_rows DB.empty 1 (some "2024-13") ⟨2024, 6, 15, 10, 0, 0, 0⟩ = none :=
  ⟨c5_amended_fallback_only_in_list_export.1 ⟨2024, 6, 15, 10, 0, 0, 0⟩,
   c5_amended_fallback_only_in_list_export.2.1 "garbage" ⟨2024, 6, 15, 10, 0, 0, 0⟩
     (Or.inl (by decide)),
   c5_amended_fallback_only_in_list_export.2.2.1 "2024-13" ⟨2024, 6, 15, 10, 0, 0, 0⟩ 2024 13
     (by decide) (by decide) (by decide),
   c5_amended_fallback_only_in_list_export.2.2.2.1 DB.empty 1 "food" (.fin 10) "2024-13"
     ⟨2024, 6, 15, 10, 0, 0, 0⟩,
   c5_amended_fallback_only_in_list_export.2.2.2.2 DB.empty 1 "2024-13"
     ⟨2024, 6, 15, 10, 0, 0, 0⟩ 2024 13 (by decide) (by decide) (by decide)⟩

/-! ## Claim C7 -/

/-- C7: month bounds are half-open and never double-count. For every valid
(year, month) — December 9999 excluded, since its successor month is outside
datetime's representable range and month_bounds_utc would raise there —
month_bounds_utc returns the ISO string of the month's first instant and of
the next month's first instant (December rolling into January of year + 1);
every month-range query filters rows by `user matches AND start <= ts AND
ts < end`; the month's own first instant lies in its own range; the ranges of
two distinct valid months share no timestamp string; and concretely,
2024-03-01T00:00:00Z belongs to March 2024 and not to February, while
2024-02-29T23:59:59Z belongs to February and not to March. -/
theorem c7_half_open_month_ranges (y m : Int) (hy1 : 1 ≤ y) (hy : y ≤ 9998)
    (hm1 : 1 ≤ m) (hm : m ≤ 12) :
    month_bounds_utc y m =
      some (isoUtc ⟨y.toNat, m.toNat, 1, 0, 0, 0, 0⟩,
            isoUtc ⟨(nextYM y.toNat m.toNat).1, (nextYM y.toNat m.toNat).2, 1, 0, 0, 0, 0⟩) ∧
    nextYM y.toNat m.toNat =
      (if m = 12 then (y.toNat + 1, 1) else (y.toNat, m.toNat + 1)) ∧
    (∀ (uid : Int) (s e : String) (t : TxnRow),
      rangeMatch uid s e t = (t.user_id == uid && inRange t.ts s e)) ∧
    inRange (isoUtc ⟨y.toNat, m.toNat, 1, 0, 0, 0, 0⟩)
      (isoUtc ⟨y.toNat, m.toNat, 1, 0, 0, 0, 0⟩)
      (isoUtc ⟨(nextYM y.toNat m.toNat).1, (nextYM y.toNat m.toNat).2, 1, 0, 0, 0, 0⟩) = true ∧
    (∀ (y2 m2 : Int), 1 ≤ y2 → y2 ≤ 9998 → 1 ≤ m2 → m2 ≤ 12 → ¬(y = y2 ∧ m = m2) →
      ∀ ts : String,
        ¬(inRange ts (isoUtc ⟨y.toNat, m.toNat, 1, 0, 0, 0, 0⟩)
            (isoUtc ⟨(nextYM y.toNat m.toNat).1, (nextYM y.toNat m.toNat).2,
              1, 0, 0, 0, 0⟩) = true ∧
          inRange ts (isoUtc ⟨y2.toNat, m2.toNat, 1, 0, 0, 0, 0⟩)
            (isoUtc ⟨(nextYM y2.toNat m2.toNat).1, (nextYM y2.toNat m2.toNat).2,
              1, 0, 0, 0, 0⟩) = true)) ∧
    (month_bounds_utc 2024 3).map (fun p => inRange "2024-03-01T00:00:00Z" p.1 p.2) =
      some true ∧
    (month_bounds_utc 2024 2).map (fun p => inRange "2024-03-01T00:00:00Z" p.1 p.2) =
      some false ∧
    (month_bounds_utc 2024 2).map (fun p => inRange "2024-02-29T23:59:59Z" p.1 p.2) =
      some true ∧
    (month_bounds_utc 2024 3).map (fun p => inRange "2024-02-29T23:59:59Z" p.1 p.2) =
      some false := by
  have hyn1 : 1 ≤ y.toNat := by omega
  have hyn : y.toNat ≤ 9998 := by omega
  have hmn1 : 1 ≤ m.toNat := by omega
  have hmn : m.toNat ≤ 12 := by omega
  refine ⟨?_, ?_, rangeMatch_eq_inRange, ?_, ?_, by decide, by decide, by decide, by decide⟩
  · rw [month_bounds_utc_eq y m hy1 hy hm1 hm, isoUtc_first, isoUtc_first]
  · by_cases h12 : m = 12
    · simp [nextYM, h12, show m.toNat = 12 by omega]
    · simp [nextYM, show ¬(m.toNat = 12) by omega, h12]
  · rw [isoUtc_first, isoUtc_first]
    exact month_first_instant_in_own_range y.toNat m.toNat hyn1 hyn hmn1 hmn
  · intro y2 m2 hy21 hy2 hm21 hm2 hne ts
    rw [isoUtc_first, isoUtc_first, isoUtc_first, isoUtc_first]
    exact month_ranges_disjoint y.toNat m.toNat y2.toNat m2.toNat hyn1 hyn hmn1 hmn
      (by omega) (by omega) (by omega) (by omega) (fun h => hne (by omega)) ts

/-- Witness for C7 at February/March 2024 and the boundary instant. -/
theorem c7_half_open_witness :
    month_bounds_utc 2024 2 =
      some (isoUtc ⟨2024, 2, 1, 0, 0, 0, 0⟩, isoUtc ⟨2024, 3, 1, 0, 0, 0, 0⟩) ∧
    inRange (isoUtc ⟨2024, 2, 1, 0, 0, 0, 0⟩) (isoUtc ⟨2024, 2, 1, 0, 0, 0, 0⟩)
      (isoUtc ⟨2024, 3, 1, 0, 0, 0, 0⟩) = true ∧
    ¬(inRange "2024-03-01T00:00:00Z" (isoUtc ⟨2024, 2, 1, 0, 0, 0, 0⟩)
        (isoUtc ⟨2024, 3, 1, 0, 0, 0, 0⟩) = true ∧
      inRange "2024-03-01T00:00:00Z" (isoUtc ⟨2024, 3, 1, 0, 0, 0, 0⟩)
        (isoUtc ⟨2024, 4, 1, 0, 0, 0, 0⟩) = true) := by
  have h := c7_half_open_month_ranges 2024 2 (by norm_num) (by norm_num) (by norm_num)
    (by norm_num)
  exact ⟨h.1, h.2.2.2.1,
    h.2.2.2.2.1 2024 3 (by norm_num) (by norm_num) (by norm_num) (by norm_num) (by omega)
      "2024-03-01T00:00:00Z"⟩

/-! ## Claim C3 -/

theorem export_rows_eq_sort_flat (db : DB) (uid : Int) (s e : String) :
    export_rows db uid s e =
      sortByLe (fun a b => !(strLtb b.1 a.1))
        (flatRows db.categories (db.transactions.filter (rangeMatch uid s e))) := rfl

theorem insertByLe_perm (le : α → α → Bool) (x : α) (l : List α) :
    (insertByLe le x l).Perm (x :: l) := by
  induction l with
  | nil => exact List.Perm.refl _
  | cons y ys ih =>
    unfold insertByLe
    split_ifs
    · exact List.Perm.refl _
    · exact (ih.cons y).trans (List.Perm.swap x y ys)

theorem sortByLe_perm (le : α → α → Bool) (l : List α) : (sortByLe le l).Perm l := by
  induction l with
  | nil => exact List.Perm.refl _
  | cons x xs ih =>
    unfold sortByLe
    exact (insertByLe_perm le x (sortByLe le xs)).trans (ih.cons x)

theorem sum_filter_map (p : α → Bool) (g : α → ℚ) (l : List α) :
    ((l.filter p).map g).sum = (l.map (fun x => if p x then g x else 0)).sum := by
  induction l with
  | nil => rfl
  | cons x xs ih =>
    by_cases h : p x = true <;> simp [List.filter_cons, h, ih]

theorem sum_map_flatMap (g : β → ℚ) (f : α → List β) (l : List α) :
    ((l.flatMap f).map g).sum = (l.map (fun a => ((f a).map g).sum)).sum := by
  induction l with
  | nil => rfl
  | cons x xs ih => simp [List.flatMap_cons, ih]

theorem sum_cents (l : List ℚ) (h : ∀ x ∈ l, ∃ k : ℤ, x = (k : ℚ) / 100) :
    ∃ K : ℤ, l.sum = (K : ℚ) / 100 := by
  induction l with
  | nil => exact ⟨0, by simp⟩
  | cons x xs ih =>
    obtain ⟨k, hk⟩ := h x (by simp)
    obtain ⟨K, hK⟩ := ih (fun y hy => h y (by simp [hy]))
    refine ⟨k + K, ?_⟩
    simp only [List.sum_cons, hk, hK]
    push_cast
    ring

theorem sum_map_neg (v : α → ℚ) (l : List α) :
    (l.map (fun x => -(v x))).sum = -((l.map v).sum) := by
  induction l with
  | nil => simp
  | cons x xs ih => simp [ih]; ring

theorem sum_nonpos_q (l : List ℚ) (h : ∀ x ∈ l, x ≤ 0) : l.sum ≤ 0 := by
  induction l with
  | nil => simp
  | cons x xs ih =>
    simp only [List.sum_cons]
    have h1 := h x (by simp)
    have h2 := ih (fun y hy => h y (by simp [hy]))
    linarith

theorem pySum_map_fin {α} (f : α → PyF) (l : List α) (h : ∀ x ∈ l, ∃ r : ℚ, f x = .fin r) :
    pySum (l.map f) = .fin ((l.map (fun x => ratOf (f x))).sum) := by
  rw [pySum_fin]
  · rw [List.map_map]
    rfl
  · intro x hx
    obtain ⟨y, hy, rfl⟩ := List.mem_map.mp hx
    exact h y hy

theorem flat_sums (cats : List CatRow) (l : List TxnRow)
    (g : (String × String × PyF × String × String) → ℚ) (v : TxnRow → ℚ)
    (hg : ∀ (t : TxnRow) (c : CatRow),
      g (t.ts, t.ttype, PyF.abs t.amount, c.name, t.note) = v t)
    (hcat : ∀ t ∈ l, (cats.filter (fun c => c.id == t.category_id)).length = 1) :
    ((flatRows cats l).map g).sum = (l.map v).sum := by
  unfold flatRows
  rw [sum_map_flatMap]
  apply congrArg List.sum
  apply List.map_congr_left
  intro t ht
  obtain ⟨c, hc⟩ := List.length_eq_one.mp (hcat t ht)
  rw [hc]
  simp [hg]

/-- C3 amended: the export round-trip holds for a period with at least one
transaction when every transaction of the user from the period's start onward
lies before the period's end (transactions in earlier months are irrelevant;
ones at or after the end break it because get_totals has no end bound), the
amounts are whole cents with income nonnegative and expense nonpositive (the
shape every recorded transaction has for nonnegative magnitudes), the types
are the two schema kinds, and each transaction's category exists exactly once
(the join would otherwise drop or duplicate rows): then totals computed from
the period's start equal exactly the income / expense / signed re-sums of the
exported rows. -/
theorem c3_amended_export_round_trip (db : DB) (uid : Int) (s e : String)
    (h_end : ∀ t ∈ db.transactions, t.user_id = uid → strLeb s t.ts = true →
      strLtb t.ts e = true)
    (h_ne : ∃ t ∈ db.transactions, totalsMatch uid s t = true)
    (h_amt : ∀ t ∈ db.transactions, totalsMatch uid s t = true →
      ∃ k : ℤ, t.amount = .fin ((k : ℚ) / 100) ∧
        (t.ttype = "income" → 0 ≤ k) ∧ (t.ttype = "expense" → k ≤ 0))
    (h_kind : ∀ t ∈ db.transactions, totalsMatch uid s t = true →
      t.ttype = "expense" ∨ t.ttype = "income")
    (h_cat : ∀ t ∈ db.transactions, totalsMatch uid s t = true →
      (db.categories.filter (fun c => c.id == t.category_id)).length = 1) :
    get_totals db uid s =
      (some (exportKindSum "income" (export_rows db uid s e)),
       some (exportKindSum "expense" (export_rows db uid s e)),
       some (exportNet (export_rows db uid s e))) := by
  -- the totals filter and the export filter select the same rows
  have hfeq : db.transactions.filter (totalsMatch uid s) =
      db.transactions.filter (rangeMatch uid s e) := by
    apply List.filter_congr
    intro t ht
    unfold totalsMatch rangeMatch
    cases hu : (t.user_id == uid) with
    | false => simp [hu]
    | true =>
      cases hs : strLeb s t.ts with
      | false => simp [hu, hs]
      | true =>
        have he := h_end t ht (by simpa using hu) hs
        simp [hu, hs, he]
  have hmemP : ∀ t ∈ db.transactions.filter (rangeMatch uid s e),
      (∃ k : ℤ, t.amount = .fin ((k : ℚ) / 100) ∧
        (t.ttype = "income" → 0 ≤ k) ∧ (t.ttype = "expense" → k ≤ 0)) ∧
      (t.ttype = "expense" ∨ t.ttype = "income") := by
    intro t ht
    rw [← hfeq] at ht
    have h1 := List.mem_filter.mp ht
    exact ⟨h_amt t h1.1 h1.2, h_kind t h1.1 h1.2⟩
  have hcatP : ∀ t ∈ db.transactions.filter (rangeMatch uid s e),
      (db.categories.filter (fun c => c.id == t.category_id)).length = 1 := by
    intro t ht
    rw [← hfeq] at ht
    have h1 := List.mem_filter.mp ht
    exact h_cat t h1.1 h1.2
  have hne2 : (db.transactions.filter (totalsMatch uid s)).isEmpty = false := by
    obtain ⟨t, ht, hmt⟩ := h_ne
    have hmem : t ∈ db.transactions.filter (totalsMatch uid s) :=
      List.mem_filter.mpr ⟨ht, hmt⟩
    cases hemp : (db.transactions.filter (totalsMatch uid s)).isEmpty
    · rfl
    · rw [List.isEmpty_iff] at hemp
      rw [hemp] at hmem
      simp at hmem
  -- shape of export rows
  have hperm := sortByLe_perm
    (fun (a b : String × String × PyF × String × String) => !(strLtb b.1 a.1))
    (flatRows db.categories (db.transactions.filter (rangeMatch uid s e)))
  have hshape : ∀ r ∈ export_rows db uid s e,
      ∃ t ∈ db.transactions.filter (rangeMatch uid s e), ∃ c : CatRow,
        r = (t.ts, t.ttype, PyF.abs t.amount, c.name, t.note) := by
    intro r hr
    rw [export_rows_eq_sort_flat] at hr
    have hr2 := hperm.mem_iff.mp hr
    obtain ⟨t, ht, hr3⟩ := List.mem_flatMap.mp hr2
    obtain ⟨c, -, rfl⟩ := List.mem_map.mp hr3
    exact ⟨t, ht, c, rfl⟩
  -- income component
  have hIncL : pySum ((db.transactions.filter (rangeMatch uid s e)).map
      (fun t => if t.ttype == "income" then t.amount else .fin 0)) =
      .fin (((db.transactions.filter (rangeMatch uid s e)).map
        (fun t => if t.ttype == "income" then ratOf t.amount else 0)).sum) := by
    rw [pySum_map_fin]
    · apply congrArg
      apply congrArg
      apply List.map_congr_left
      intro t ht
      by_cases hb : (t.ttype == "income") = true <;> simp [hb, ratOf]
    · intro t ht
      obtain ⟨⟨k, hk, -, -⟩, -⟩ := hmemP t ht
      by_cases hb : (t.ttype == "income") = true <;> simp [hb, hk]
  -- expense component
  have hExpL : pySum ((db.transactions.filter (rangeMatch uid s e)).map
      (fun t => if t.ttype == "expense" then t.amount else .fin 0)) =
      .fin (((db.transactions.filter (rangeMatch uid s e)).map
        (fun t => if t.ttype == "expense" then ratOf t.amount else 0)).sum) := by
    rw [pySum_map_fin]
    · apply congrArg
      apply congrArg
      apply List.map_congr_left
      intro t ht
      by_cases hb : (t.ttype == "expense") = true <;> simp [hb, ratOf]
    · intro t ht
      obtain ⟨⟨k, hk, -, -⟩, -⟩ := hmemP t ht
      by_cases hb : (t.ttype == "expense") = true <;> simp [hb, hk]
  -- net component
  have hNetL : pySum ((db.transactions.filter (rangeMatch uid s e)).map
      (fun t => t.amount)) =
      .fin (((db.transactions.filter (rangeMatch uid s e)).map
        (fun t => ratOf t.amount)).sum) := by
    rw [pySum_map_fin]
    intro t ht
    obtain ⟨⟨k, hk, -, -⟩, -⟩ := hmemP t ht
    exact ⟨_, hk⟩
  -- export income sum
  have hExpIncome : exportKindSum "income" (export_rows db uid s e) =
      .fin (((db.transactions.filter (rangeMatch uid s e)).map
        (fun t => if t.ttype == "income" then ratOf t.amount else 0)).sum) := by
    unfold exportKindSum
    rw [pySum_map_fin]
    · rw [sum_filter_map, export_rows_eq_sort_flat]
      rw [((hperm.map (fun r => if (r.2.1 == "income") = true then ratOf r.2.2.1 else 0)).sum_eq :
        _ = _)]
      rw [flat_sums db.categories _ _
        (fun t => if t.ttype == "income" then ratOf (PyF.abs t.amount) else 0)
        (fun t c => rfl) hcatP]
      apply congrArg
      apply congrArg List.sum
      apply List.map_congr_left
      intro t ht
      obtain ⟨⟨k, hk, hki, -⟩, -⟩ := hmemP t ht
      by_cases hb : (t.ttype == "income") = true
      · have h0 : (0 : ℚ) ≤ (k : ℚ) / 100 := by
          have := hki (by simpa using hb)
          positivity
        simp [hb, hk, ratOf, PyF.abs, abs_of_nonneg h0]
      · simp [hb]
    · intro x hx
      have hx2 : x ∈ export_rows db uid s e := List.mem_of_mem_filter hx
      obtain ⟨t, ht, c, rfl⟩ := hshape x hx2
      obtain ⟨⟨k, hk, -, -⟩, -⟩ := hmemP t ht
      exact ⟨|(k : ℚ) / 100|, by rw [hk]; rfl⟩
  -- export expense sum
  have hExpExpense : exportKindSum "expense" (export_rows db uid s e) =
      .fin (-(((db.transactions.filter (rangeMatch uid s e)).map
        (fun t => if t.ttype == "expense" then ratOf t.amount else 0)).sum)) := by
    unfold exportKindSum
    rw [pySum_map_fin]
    · rw [sum_filter_map, export_rows_eq_sort_flat]
      rw [((hperm.map (fun r => if (r.2.1 == "expense") = true then ratOf r.2.2.1 else 0)).sum_eq :
        _ = _)]
      rw [flat_sums db.categories _ _
        (fun t => if t.ttype == "expense" then ratOf (PyF.abs t.amount) else 0)
        (fun t c => rfl) hcatP]
      rw [← sum_map_neg (fun t : TxnRow => if (t.ttype == "expense") = true then ratOf t.amount else 0)]
      apply congrArg
      apply congrArg List.sum
      apply List.map_congr_left
      intro t ht
      obtain ⟨⟨k, hk, -, hke⟩, -⟩ := hmemP t ht
      by_cases hb : (t.ttype == "expense") = true
      · have h0 : (k : ℚ) / 100 ≤ 0 := by
          have := hke (by simpa using hb)
          have : (k : ℚ) ≤ 0 := by exact_mod_cast this
          linarith
        simp [hb, hk, ratOf, PyF.abs, abs_of_nonpos h0]
      · simp [hb]
    · intro x hx
      have hx2 : x ∈ export_rows db uid s e := List.mem_of_mem_filter hx
      obtain ⟨t, ht, c, rfl⟩ := hshape x hx2
      obtain ⟨⟨k, hk, -, -⟩, -⟩ := hmemP t ht
      exact ⟨|(k : ℚ) / 100|, by rw [hk]; rfl⟩
  -- export net sum
  have hExpNet : exportNet (export_rows db uid s e) =
      .fin (((db.transactions.filter (rangeMatch uid s e)).map
        (fun t => ratOf t.amount)).sum) := by
    unfold exportNet
    rw [pySum_map_fin]
    · rw [export_rows_eq_sort_flat]
      rw [((hperm.map (fun r => ratOf (exportSigned r))).sum_eq : _ = _)]
      rw [flat_sums db.categories _ _
        (fun t => if t.ttype == "income" then ratOf (PyF.abs t.amount)
          else ratOf (PyF.neg (PyF.abs t.amount)))
        (fun t c => by by_cases hb : (t.ttype == "income") = true <;>
          simp [exportSigned, hb]) hcatP]
      apply congrArg
      apply congrArg List.sum
      apply List.map_congr_left
      intro t ht
      obtain ⟨⟨k, hk, hki, hke⟩, hkind⟩ := hmemP t ht
      by_cases hb : (t.ttype == "income") = true
      · have h0 : (0 : ℚ) ≤ (k : ℚ) / 100 := by
          have := hki (by simpa using hb)
          positivity
        simp [hb, hk, ratOf, PyF.abs, abs_of_nonneg h0]
      · have hexp : t.ttype = "expense" := by
          rcases hkind with h | h
          · exact h
          · exact absurd (by simp [h]) hb
        have h0 : (k : ℚ) / 100 ≤ 0 := by
          have := hke hexp
          have : (k : ℚ) ≤ 0 := by exact_mod_cast this
          linarith
        simp [hb, hk, ratOf, PyF.abs, PyF.neg, abs_of_nonpos h0]
    · intro x hx
      obtain ⟨t, ht, c, rfl⟩ := hshape x hx
      obtain ⟨⟨k, hk, -, -⟩, -⟩ := hmemP t ht
      by_cases hb : (t.ttype == "income") = true
      · exact ⟨|(k : ℚ) / 100|, by simp [exportSigned, hb, hk, PyF.abs]⟩
      · exact ⟨-|(k : ℚ) / 100|, by simp [exportSigned, hb, hk, PyF.abs, PyF.neg]⟩
  -- cents facts for the three list sums
  have hcents1 : ∃ K : ℤ, (((db.transactions.filter (rangeMatch uid s e)).map
      (fun t => if t.ttype == "income" then ratOf t.amount else 0)).sum) = (K : ℚ) / 100 := by
    apply sum_cents
    intro x hx
    obtain ⟨t, ht, rfl⟩ := List.mem_map.mp hx
    obtain ⟨⟨k, hk, -, -⟩, -⟩ := hmemP t ht
    by_cases hb : (t.ttype == "income") = true
    · exact ⟨k, by simp [hb, hk, ratOf]⟩
    · exact ⟨0, by simp [hb]⟩
  have hcents2 : ∃ K : ℤ, (((db.transactions.filter (rangeMatch uid s e)).map
      (fun t => if t.ttype == "expense" then ratOf t.amount else 0)).sum) = (K : ℚ) / 100 := by
    apply sum_cents
    intro x hx
    obtain ⟨t, ht, rfl⟩ := List.mem_map.mp hx
    obtain ⟨⟨k, hk, -, -⟩, -⟩ := hmemP t ht
    by_cases hb : (t.ttype == "expense") = true
    · exact ⟨k, by simp [hb, hk, ratOf]⟩
    · exact ⟨0, by simp [hb]⟩
  have hcents3 : ∃ K : ℤ, (((db.transactions.filter (rangeMatch uid s e)).map
      (fun t => ratOf t.amount)).sum) = (K : ℚ) / 100 := by
    apply sum_cents
    intro x hx
    obtain ⟨t, ht, rfl⟩ := List.mem_map.mp hx
    obtain ⟨⟨k, hk, -, -⟩, -⟩ := hmemP t ht
    exact ⟨k, by simp [hk, ratOf]⟩
  -- the expense list sum is nonpositive
  have hexpnonpos : (((db.transactions.filter (rangeMatch uid s e)).map
      (fun t => if t.ttype == "expense" then ratOf t.amount else 0)).sum) ≤ 0 := by
    apply sum_nonpos_q
    intro x hx
    obtain ⟨t, ht, rfl⟩ := List.mem_map.mp hx
    obtain ⟨⟨k, hk, -, hke⟩, -⟩ := hmemP t ht
    by_cases hb : (t.ttype == "expense") = true
    · have := hke (by simpa using hb)
      have hkq : (k : ℚ) ≤ 0 := by exact_mod_cast this
      simp only [hb, if_true, hk, ratOf]
      linarith
    · simp [hb]
  -- assemble
  obtain ⟨K1, hK1⟩ := hcents1
  obtain ⟨K2, hK2⟩ := hcents2
  obtain ⟨K3, hK3⟩ := hcents3
  rw [hfeq] at hne2
  simp only [get_totals, hfeq, hne2, Bool.false_eq_true, if_false]
  rw [hIncL, hExpL, hNetL, hExpIncome, hExpExpense, hExpNet]
  simp only [PyF.round2, PyF.abs]
  rw [abs_of_nonpos hexpnonpos]
  rw [hK1, hK2, hK3, round2q_cents]
  rw [show -((K2 : ℚ) / 100) = ((-K2 : ℤ) : ℚ) / 100 by push_cast; ring]
  rw [round2q_cents, round2q_cents]

/-- C3 counterexample: with a single expense of 100 recorded in March 2024,
exporting February 2024 yields no rows — signed re-sum 0 and per-kind sums 0 —
while get_totals from February's start (it has no end bound) still sees the
March transaction: net -100 and expense 100. So the round-trip fails exactly
when the user also has transactions in later months. -/
theorem c3_counterexample_later_month :
    export_rows dbYesterday 1 "2024-02-01T00:00:00Z" "2024-03-01T00:00:00Z" = [] ∧
    exportNet [] = .fin 0 ∧
    exportKindSum "expense" [] = .fin 0 ∧
    get_totals dbYesterday 1 "2024-02-01T00:00:00Z" =
      (some (.fin 0), some (.fin 100), some (.fin (-100))) ∧
    PyF.fin 0 ≠ PyF.fin (-100) ∧
    PyF.fin 0 ≠ PyF.fin 100 := by
  refine ⟨by decide, rfl, rfl, ?_, by decide, by decide⟩
  simp [get_totals, dbYesterday, totalsMatch, strLeb, strLtb, listLtb, pySum, PyF.add,
    PyF.abs, PyF.round2, round2q]
  norm_num

/-- Witness for the amended C3 on a store holding one June expense of 250,
exported for June 2024. -/
theorem c3_amended_export_round_trip_witness :
    get_totals dbOneExpense 1 "2024-06-01T00:00:00Z" =
      (some (exportKindSum "income"
         (export_rows dbOneExpense 1 "2024-06-01T00:00:00Z" "2024-07-01T00:00:00Z")),
       some (exportKindSum "expense"
         (export_rows dbOneExpense 1 "2024-06-01T00:00:00Z" "2024-07-01T00:00:00Z")),
       some (exportNet
         (export_rows dbOneExpense 1 "2024-06-01T00:00:00Z" "2024-07-01T00:00:00Z"))) :=
  c3_amended_export_round_trip dbOneExpense 1 "2024-06-01T00:00:00Z" "2024-07-01T00:00:00Z"
    (by decide)
    (by decide)
    (by
      intro t ht hm
      have ht2 : t = (⟨1, 1, .fin (-250), 1, "2024-06-05T10:00:00Z", "coffee morning",
          "expense"⟩ : TxnRow) := by
        simpa [dbOneExpense] using ht
      subst ht2
      refine ⟨-25000, ?_, ?_, ?_⟩
      · show PyF.fin (-250) = PyF.fin (((-25000 : ℤ) : ℚ) / 100)
        congr 1
        norm_num
      · intro h
        simp at h
      · intro h
        norm_num)
    (by decide)
    (by decide)
